import Mathlib

/-!
Verification development for the querycraft SQL query-builder library
(github.com/antibomberman/querycraft).

The query-building core is embedded shallowly:

* Go strings are Lean `String`s; the handful of `strings` stdlib helpers the
  code uses (`Join`, `HasPrefix`, `TrimPrefix`, `TrimSpace`, `ReplaceAll`)
  are re-implemented here as `goJoin`, `goHasPre`, `goTrimPre`,
  `goTrimSpace`, `escTicks` with Go semantics (byte-level prefix tests
  coincide with character-level ones on the identifiers involved).
* Go `any` argument values are modelled by the closed sum type `Arg`.
* The MySQL dialect (src/dialect/mysql.go) is embedded as pure functions in
  namespace `MySQLDialect`.
* The select builder (src/unnamed/part_016, the current `selectBuilder`
  implementation, whose behavior the repository's tests in
  src/tests/select_tests expect) is embedded as the structure
  `selectBuilder` together with its methods; `buildSQL` renders the
  accumulated state to a `(String, List Arg)` pair exactly as the Go
  `buildSQL` does.
* Database execution (the sqlx executor boundary) is external to the
  repository; where a claim needs it, the result set a query would produce
  is modelled as a list of rows, and `LIMIT`/`OFFSET` act on that list.
* Aliasing of Go slices (relevant only to the clone-independence claim) is
  modelled separately by an explicit heap of backing arrays, later in this
  file.
-/

/-- Go `any` values that flow into argument lists, as a closed sum. -/
inductive Arg where
  | i (n : Int)
  | s (v : String)
  | b (v : Bool)
  | null
deriving DecidableEq, Repr

/-- A decoded result row (Go `map[string]any`), as an association list. -/
abbrev Row := List (String × Arg)

/-- Go `strings.Join` (empty list gives the empty string). -/
def goJoin (sep : String) : List String → String
  | [] => ""
  | [x] => x
  | x :: y :: xs => x ++ sep ++ goJoin sep (y :: xs)

/-- Go `strings.HasPrefix`. -/
def goHasPre (s pre : String) : Bool := List.isPrefixOf pre.data s.data

/-- Go `strings.TrimPrefix`. -/
def goTrimPre (s pre : String) : String :=
  if goHasPre s pre then String.mk (s.data.drop pre.data.length) else s

/-- ASCII white-space characters trimmed by Go `strings.TrimSpace`. -/
def goIsSpaceTrim (c : Char) : Bool :=
  c == '\t' || c == '\n' || c == Char.ofNat 11 || c == Char.ofNat 12 || c == '\r' || c == ' '

/-- Go `strings.TrimSpace` (the inputs involved here are ASCII). -/
def goTrimSpace (s : String) : String :=
  String.mk (((s.data.dropWhile goIsSpaceTrim).reverse.dropWhile goIsSpaceTrim).reverse)

/-- Go `strings.ReplaceAll(name, BACKTICK, BACKTICK BACKTICK)` specialised to
the single-character pattern used by `QuoteIdentifier`. -/
def escTicks : List Char → List Char
  | [] => []
  | c :: cs => if c == '`' then '`' :: '`' :: escTicks cs else c :: escTicks cs

namespace MySQLDialect

/-- MySQLDialect.PlaceholderFormat (src/dialect/mysql.go). -/
def PlaceholderFormat : String := "?"

/-- MySQLDialect.QuoteIdentifier (src/dialect/mysql.go): wrap in backticks,
doubling embedded backticks. -/
def QuoteIdentifier (name : String) : String :=
  "`" ++ String.mk (escTicks name.data) ++ "`"

/-- MySQLDialect.SelectLimit (src/dialect/mysql.go). -/
def SelectLimit (limit : Int) : String := "LIMIT " ++ toString limit

/-- MySQLDialect.SelectOffset (src/dialect/mysql.go). -/
def SelectOffset (offset : Int) : String := "OFFSET " ++ toString offset

/-- MySQLDialect.SelectOrderBy (src/dialect/mysql.go). -/
def SelectOrderBy (column : String) (desc : Bool) : String :=
  if desc then "ORDER BY " ++ QuoteIdentifier column ++ " DESC"
  else "ORDER BY " ++ QuoteIdentifier column

/-- MySQLDialect.InsertIgnore (src/dialect/mysql.go). -/
def InsertIgnore : String := "INSERT IGNORE"

/-- MySQLDialect.InsertOnConflict (src/dialect/mysql.go): when both the
requested-update list and the excluded list are empty, render the bare
keyword; otherwise render one assignment per entry of the requested list
followed by one per entry of the excluded list. The first parameter is not
read by the implementation. -/
def InsertOnConflict (columns updateColumns updateExcluded : List String) : String :=
  if updateColumns = [] ∧ updateExcluded = [] then "ON DUPLICATE KEY UPDATE"
  else
    "ON DUPLICATE KEY UPDATE " ++
      goJoin ", " ((updateColumns ++ updateExcluded).map
        (fun col => QuoteIdentifier col ++ " = VALUES(" ++ QuoteIdentifier col ++ ")"))

end MySQLDialect

/-!
Model of the Go regexp used by `selectBuilder.quoteTableNameWithAlias`:

  `(?i)^(.+?)\s+(as\s+)?(.+?)$`

with RE2 leftmost-first submatch semantics: group 1 is the shortest
non-empty newline-free prefix after which the rest of the pattern matches;
the following `\s+` is greedy with backtracking; the optional
case-insensitive `as` + `\s+` is preferred present; group 3 is forced by the
trailing `$` to be the entire (non-empty, newline-free) remainder.
-/

/-- Characters of the Go regexp class `\s`. -/
def goIsSpace (c : Char) : Bool :=
  c == '\t' || c == '\n' || c == Char.ofNat 12 || c == '\r' || c == ' '

/-- Length of the maximal `\s` run at the front of a character list. -/
def wsRun : List Char → Nat
  | [] => 0
  | c :: cs => if goIsSpace c then wsRun cs + 1 else 0

/-- Whether a character list is free of newlines (matchable by `.+`). -/
def noNewline (cs : List Char) : Bool := cs.all (fun c => c != '\n')

/-- Backtracking worker for the greedy `\s+`: try consuming `k` characters
for `k` counting down, returning the first remainder that is a valid
group-3 text. -/
def greedyWsAux (rest : List Char) : Nat → Option (List Char)
  | 0 => none
  | k + 1 =>
    if rest.drop (k + 1) ≠ [] ∧ noNewline (rest.drop (k + 1)) then some (rest.drop (k + 1))
    else greedyWsAux rest k

/-- Greedy `\s+` followed by a non-empty `.+?$` tail, starting from the
maximal white-space run. -/
def greedyWsSplit (rest : List Char) : Option (List Char) :=
  greedyWsAux rest (wsRun rest)

/-- Case-insensitive test for a leading literal `as`. -/
def isAs : List Char → Bool
  | a :: s :: _ => (a == 'a' || a == 'A') && (s == 's' || s == 'S')
  | _ => false

/-- Match `(as\s+)?(.+?)$` against the text following the first `\s+`,
preferring the `as` branch when it matches. -/
def tailAfterWs (rem : List Char) : Option (List Char) :=
  if isAs rem then
    match greedyWsSplit (rem.drop 2) with
    | some g3 => some g3
    | none => if rem ≠ [] ∧ noNewline rem then some rem else none
  else if rem ≠ [] ∧ noNewline rem then some rem else none

/-- Backtracking worker for the first `\s+` of the alias regexp. -/
def matchAfterAux (rest : List Char) : Nat → Option (List Char)
  | 0 => none
  | k + 1 =>
    match tailAfterWs (rest.drop (k + 1)) with
    | some g3 => some g3
    | none => matchAfterAux rest k

/-- Match `\s+(as\s+)?(.+?)$` against the text following group 1, with the
leading `\s+` greedy (longest run first, backtracking downwards). -/
def matchAfterTable (rest : List Char) : Option (List Char) :=
  matchAfterAux rest (wsRun rest)

/-- Find the regexp's submatches: the shortest non-empty newline-free
group 1 (accumulated reversed in `acc`) after which the remainder matches.
Returns `(group1, group3)` on success. -/
def splitAlias : List Char → List Char → Option (List Char × List Char)
  | [], _ => none
  | c :: rest, acc =>
    if c == '\n' then none
    else
      match matchAfterTable rest with
      | some g3 => some ((c :: acc).reverse, g3)
      | none => splitAlias rest (c :: acc)

/-- selectBuilder.quoteTableNameWithAlias (src/unnamed/part_016): when the
alias regexp matches, quote the trimmed table part and append the trimmed
alias unquoted after a literal ` as `; otherwise quote the whole name. -/
def quoteTableNameWithAlias (tableName : String) : String :=
  match splitAlias tableName.data [] with
  | some (g1, g3) =>
      MySQLDialect.QuoteIdentifier (goTrimSpace (String.mk g1)) ++ " as " ++
        goTrimSpace (String.mk g3)
  | none => MySQLDialect.QuoteIdentifier tableName

/-- ASCII identifier-start characters of the join-condition regexp. -/
def isIdentStart (c : Char) : Bool :=
  ('a' ≤ c && c ≤ 'z') || ('A' ≤ c && c ≤ 'Z') || c == '_'

/-- ASCII identifier characters of the join-condition regexp. -/
def isIdentChar (c : Char) : Bool :=
  isIdentStart c || ('0' ≤ c && c ≤ '9')

/-- Greedy `(\.[A-Za-z_][A-Za-z0-9_]*)*` continuation of a dotted
identifier token (fuelled; the fuel is an upper bound on the input length). -/
def grabSegs : Nat → List Char → List Char
  | 0, _ => []
  | fuel + 1, cs =>
    match cs with
    | '.' :: d :: rest =>
      if isIdentStart d then
        let seg := (d :: rest).takeWhile isIdentChar
        '.' :: (seg ++ grabSegs fuel ((d :: rest).drop seg.length))
      else []
    | _ => []

/-- Maximal match of `[A-Za-z_][A-Za-z0-9_]*(\.[A-Za-z_][A-Za-z0-9_]*)*`
starting at the head of `cs` (the head is assumed to be an ident start). -/
def grabTok (cs : List Char) : List Char :=
  let base := cs.takeWhile isIdentChar
  base ++ grabSegs cs.length (cs.drop base.length)

/-- Replacement applied to each matched token: SQL keywords AND/OR/ON/AS are
kept verbatim (case-insensitively), every other token is quoted whole. -/
def joinTokRepl (tok : List Char) : List Char :=
  let u := (String.mk tok).toUpper
  if u = "AND" ∨ u = "OR" ∨ u = "ON" ∨ u = "AS" then tok
  else (MySQLDialect.QuoteIdentifier (String.mk tok)).data

/-- Scanner realising `regexp.ReplaceAllStringFunc` for the identifier
pattern: leftmost maximal tokens are replaced, other characters copied. -/
def qjcAux : Nat → List Char → List Char
  | 0, _ => []
  | _, [] => []
  | fuel + 1, c :: cs =>
    if isIdentStart c then
      let tok := grabTok (c :: cs)
      joinTokRepl tok ++ qjcAux fuel ((c :: cs).drop tok.length)
    else c :: qjcAux fuel cs

/-- selectBuilder.quoteJoinCondition (src/unnamed/part_016). -/
def quoteJoinCondition (condition : String) : String :=
  String.mk (qjcAux (condition.data.length + 1) condition.data)

/-- The select builder's accumulated state (src/unnamed/part_016,
`selectBuilder`). The executor handle, context, logger, print flag and the
unused subquery slots carry no query content and are omitted. -/
structure selectBuilder where
  columns : List String := []
  table : String := ""
  joins : List String := []
  wheres : List String := []
  whereArgs : List Arg := []
  orders : List String := []
  groups : List String := []
  havings : List String := []
  havingArgs : List Arg := []
  limit : Option Int := none
  offset : Option Int := none
deriving DecidableEq, Repr

/-- NewSelectBuilder (src/unnamed/part_016): fresh builder holding only the
requested columns. -/
def NewSelectBuilder (columns : List String) : selectBuilder :=
  { columns := columns }

namespace selectBuilder

/-- selectBuilder.From. -/
def From (s : selectBuilder) (table : String) : selectBuilder :=
  { s with table := table }

/-- selectBuilder.Where: appends `quoted-column operator ?` and the value. -/
def Where (s : selectBuilder) (column operator : String) (value : Arg) : selectBuilder :=
  { s with
    wheres := s.wheres ++
      [MySQLDialect.QuoteIdentifier column ++ " " ++ operator ++ " " ++
        MySQLDialect.PlaceholderFormat]
    whereArgs := s.whereArgs ++ [value] }

/-- selectBuilder.WhereEq. -/
def WhereEq (s : selectBuilder) (column : String) (value : Arg) : selectBuilder :=
  s.Where column "=" value

/-- selectBuilder.WhereIn: one placeholder per value. -/
def WhereIn (s : selectBuilder) (column : String) (values : List Arg) : selectBuilder :=
  { s with
    wheres := s.wheres ++
      [MySQLDialect.QuoteIdentifier column ++ " IN (" ++
        goJoin ", " (List.replicate values.length MySQLDialect.PlaceholderFormat) ++ ")"]
    whereArgs := s.whereArgs ++ values }

/-- selectBuilder.WhereNotIn. -/
def WhereNotIn (s : selectBuilder) (column : String) (values : List Arg) : selectBuilder :=
  { s with
    wheres := s.wheres ++
      [MySQLDialect.QuoteIdentifier column ++ " NOT IN (" ++
        goJoin ", " (List.replicate values.length MySQLDialect.PlaceholderFormat) ++ ")"]
    whereArgs := s.whereArgs ++ values }

/-- selectBuilder.WhereNull: no argument. -/
def WhereNull (s : selectBuilder) (column : String) : selectBuilder :=
  { s with wheres := s.wheres ++ [MySQLDialect.QuoteIdentifier column ++ " IS NULL"] }

/-- selectBuilder.WhereNotNull. -/
def WhereNotNull (s : selectBuilder) (column : String) : selectBuilder :=
  { s with wheres := s.wheres ++ [MySQLDialect.QuoteIdentifier column ++ " IS NOT NULL"] }

/-- selectBuilder.WhereBetween: two placeholders, two arguments in order. -/
def WhereBetween (s : selectBuilder) (column : String) (lo hi : Arg) : selectBuilder :=
  { s with
    wheres := s.wheres ++
      [MySQLDialect.QuoteIdentifier column ++ " BETWEEN " ++
        MySQLDialect.PlaceholderFormat ++ " AND " ++ MySQLDialect.PlaceholderFormat]
    whereArgs := s.whereArgs ++ [lo, hi] }

/-- selectBuilder.WhereNotBetween. -/
def WhereNotBetween (s : selectBuilder) (column : String) (lo hi : Arg) : selectBuilder :=
  { s with
    wheres := s.wheres ++
      [MySQLDialect.QuoteIdentifier column ++ " NOT BETWEEN " ++
        MySQLDialect.PlaceholderFormat ++ " AND " ++ MySQLDialect.PlaceholderFormat]
    whereArgs := s.whereArgs ++ [lo, hi] }

/-- selectBuilder.WhereRaw: the condition text is appended unmodified. -/
def WhereRaw (s : selectBuilder) (condition : String) (args : List Arg) : selectBuilder :=
  { s with wheres := s.wheres ++ [condition], whereArgs := s.whereArgs ++ args }

/-- selectBuilder.OrWhere: the fragment carries an explicit `OR ` marker. -/
def OrWhere (s : selectBuilder) (column operator : String) (value : Arg) : selectBuilder :=
  { s with
    wheres := s.wheres ++
      ["OR " ++ MySQLDialect.QuoteIdentifier column ++ " " ++ operator ++ " " ++
        MySQLDialect.PlaceholderFormat]
    whereArgs := s.whereArgs ++ [value] }

/-- selectBuilder.OrWhereEq. -/
def OrWhereEq (s : selectBuilder) (column : String) (value : Arg) : selectBuilder :=
  s.OrWhere column "=" value

/-- selectBuilder.OrWhereIn. -/
def OrWhereIn (s : selectBuilder) (column : String) (values : List Arg) : selectBuilder :=
  { s with
    wheres := s.wheres ++
      ["OR " ++ MySQLDialect.QuoteIdentifier column ++ " IN (" ++
        goJoin ", " (List.replicate values.length MySQLDialect.PlaceholderFormat) ++ ")"]
    whereArgs := s.whereArgs ++ values }

/-- selectBuilder.OrWhereNull. -/
def OrWhereNull (s : selectBuilder) (column : String) : selectBuilder :=
  { s with wheres := s.wheres ++ ["OR " ++ MySQLDialect.QuoteIdentifier column ++ " IS NULL"] }

/-- selectBuilder.OrWhereRaw. -/
def OrWhereRaw (s : selectBuilder) (condition : String) (args : List Arg) : selectBuilder :=
  { s with wheres := s.wheres ++ ["OR " ++ condition], whereArgs := s.whereArgs ++ args }

end selectBuilder

/-- The AND-insertion loop shared verbatim by `buildSQL`, `WhereGroup` and
`OrWhereGroup` (src/unnamed/part_016): the first fragment is kept as-is;
each later fragment is kept when it already starts with `AND `, `OR ` or
`(`, and otherwise gets an `AND ` put in front. -/
def addConnectives : List String → List String
  | [] => []
  | w :: ws =>
    w :: ws.map (fun x =>
      if goHasPre x "AND " || goHasPre x "OR " || goHasPre x "(" then x else "AND " ++ x)

namespace selectBuilder

/-- selectBuilder.WhereGroup (src/unnamed/part_016): run the callback on a
fresh builder; when it produced fragments, join them with `addConnectives`,
wrap in parentheses, and append — with a leading `AND ` only when the outer
builder already has fragments. A callback producing no fragments leaves the
builder untouched. -/
def WhereGroup (s : selectBuilder) (fn : selectBuilder → selectBuilder) : selectBuilder :=
  let sb := fn {}
  if sb.wheres = [] then s
  else
    let joined := goJoin " " (addConnectives sb.wheres)
    if s.wheres ≠ [] then
      { s with wheres := s.wheres ++ ["AND (" ++ joined ++ ")"]
               whereArgs := s.whereArgs ++ sb.whereArgs }
    else
      { s with wheres := s.wheres ++ ["(" ++ joined ++ ")"]
               whereArgs := s.whereArgs ++ sb.whereArgs }

/-- selectBuilder.OrWhereGroup (src/unnamed/part_016): as `WhereGroup` but
with a leading `OR ` when the outer builder already has fragments. -/
def OrWhereGroup (s : selectBuilder) (fn : selectBuilder → selectBuilder) : selectBuilder :=
  let sb := fn {}
  if sb.wheres = [] then s
  else
    let joined := goJoin " " (addConnectives sb.wheres)
    if s.wheres ≠ [] then
      { s with wheres := s.wheres ++ ["OR (" ++ joined ++ ")"]
               whereArgs := s.whereArgs ++ sb.whereArgs }
    else
      { s with wheres := s.wheres ++ ["(" ++ joined ++ ")"]
               whereArgs := s.whereArgs ++ sb.whereArgs }

/-- selectBuilder.InnerJoin. -/
def InnerJoin (s : selectBuilder) (table condition : String) : selectBuilder :=
  { s with joins := s.joins ++
      ["INNER JOIN " ++ quoteTableNameWithAlias table ++ " ON " ++ quoteJoinCondition condition] }

/-- selectBuilder.LeftJoin. -/
def LeftJoin (s : selectBuilder) (table condition : String) : selectBuilder :=
  { s with joins := s.joins ++
      ["LEFT JOIN " ++ quoteTableNameWithAlias table ++ " ON " ++ quoteJoinCondition condition] }

/-- selectBuilder.OrderBy. -/
def OrderBy (s : selectBuilder) (column : String) : selectBuilder :=
  { s with orders := s.orders ++ [MySQLDialect.SelectOrderBy column false] }

/-- selectBuilder.OrderByDesc. -/
def OrderByDesc (s : selectBuilder) (column : String) : selectBuilder :=
  { s with orders := s.orders ++ [MySQLDialect.SelectOrderBy column true] }

/-- selectBuilder.OrderByRaw. -/
def OrderByRaw (s : selectBuilder) (expression : String) : selectBuilder :=
  { s with orders := s.orders ++ [expression] }

/-- selectBuilder.GroupBy: columns are quoted before being accumulated. -/
def GroupBy (s : selectBuilder) (columns : List String) : selectBuilder :=
  { s with groups := s.groups ++ columns.map MySQLDialect.QuoteIdentifier }

/-- selectBuilder.Having. -/
def Having (s : selectBuilder) (condition : String) (args : List Arg) : selectBuilder :=
  { s with havings := s.havings ++ [condition], havingArgs := s.havingArgs ++ args }

/-- selectBuilder.Limit. -/
def Limit (s : selectBuilder) (limit : Int) : selectBuilder :=
  { s with limit := some limit }

/-- selectBuilder.Offset. -/
def Offset (s : selectBuilder) (offset : Int) : selectBuilder :=
  { s with offset := some offset }

/-- selectBuilder.Clone (src/unnamed/part_016): a deep copy of every
query-content field. In this value-level model the copy is field-by-field;
the backing-array independence that the Go copy achieves is modelled by the
heap embedding later in this file. -/
def Clone (s : selectBuilder) : selectBuilder :=
  { columns := s.columns, table := s.table, joins := s.joins, wheres := s.wheres
    whereArgs := s.whereArgs, orders := s.orders, groups := s.groups
    havings := s.havings, havingArgs := s.havingArgs
    limit := s.limit, offset := s.offset }

end selectBuilder

/-- The WHERE-clause text produced by `buildSQL` from a fragment list:
fragments pass through `addConnectives`, are joined with single spaces, and
a leading `AND ` and then a leading `OR ` are trimmed. -/
def whereClauseOf (wheres : List String) : String :=
  goTrimPre (goTrimPre (goJoin " " (addConnectives wheres)) "AND ") "OR "

/-- The ORDER BY normalisation of `buildSQL`: expressions already starting
with `ORDER BY` (case-insensitively upper-cased) are kept, others get the
keyword put in front. -/
def orderPartsOf (orders : List String) : List String :=
  orders.map (fun o => if goHasPre o.toUpper "ORDER BY" then o else "ORDER BY " ++ o)

/-- selectBuilder.buildSQL (src/unnamed/part_016): render the accumulated
state to the SQL string and the flattened argument list (where-args first,
then having-args). -/
def selectBuilder.buildSQL (s : selectBuilder) : String × List Arg :=
  let selectPart :=
    if s.columns = [] then "SELECT *"
    else "SELECT " ++ goJoin ", " (s.columns.map MySQLDialect.QuoteIdentifier)
  let q1 := [selectPart]
  let q2 := if s.table ≠ "" then q1 ++ ["FROM " ++ quoteTableNameWithAlias s.table] else q1
  let q3 := if s.joins ≠ [] then q2 ++ [goJoin " " s.joins] else q2
  let q4 := if s.wheres ≠ [] then q3 ++ ["WHERE " ++ whereClauseOf s.wheres] else q3
  let args1 := if s.wheres ≠ [] then s.whereArgs else []
  let q5 := if s.groups ≠ [] then q4 ++ ["GROUP BY " ++ goJoin ", " s.groups] else q4
  let q6 := if s.havings ≠ [] then q5 ++ ["HAVING " ++ goJoin " " s.havings] else q5
  let args2 := if s.havings ≠ [] then args1 ++ s.havingArgs else args1
  let q7 := if s.orders ≠ [] then q6 ++ [goJoin " " (orderPartsOf s.orders)] else q6
  let q8 := match s.limit with
    | some l => q7 ++ [MySQLDialect.SelectLimit l]
    | none => q7
  let q9 := match s.offset with
    | some o => q8 ++ [MySQLDialect.SelectOffset o]
    | none => q8
  (goJoin " " q9, args2)

/-- selectBuilder.ToSQL delegates to buildSQL. -/
def selectBuilder.ToSQL (s : selectBuilder) : String × List Arg := s.buildSQL

/-- Errors surfaced by the executor boundary (database/sql): the distinct
no-rows condition or any other failure. -/
inductive DbError where
  | noRows
  | failure (msg : String)
deriving DecidableEq, Repr

/-- selectBuilder.Sum (src/unnamed/part_016): narrow the column list to the
aliased aggregate, run the query through the executor boundary (modelled by
`exec`, yielding either an error or the nullable scanned aggregate; float64
is modelled as ℚ, only the null-handling is at issue), and map a NULL
aggregate to numeric zero with no error. -/
def selectBuilder.Sum (s : selectBuilder) (column : String)
    (exec : selectBuilder → Except DbError (Option Rat)) : Rat × Option DbError :=
  match exec { s with columns := ["SUM(" ++ column ++ ") as sum"] } with
  | .error e => (0, some e)
  | .ok none => (0, none)
  | .ok (some v) => (v, none)

/-- selectBuilder.Avg (src/unnamed/part_016): as `Sum` with the AVG
aggregate. -/
def selectBuilder.Avg (s : selectBuilder) (column : String)
    (exec : selectBuilder → Except DbError (Option Rat)) : Rat × Option DbError :=
  match exec { s with columns := ["AVG(" ++ column ++ ") as avg"] } with
  | .error e => (0, some e)
  | .ok none => (0, none)
  | .ok (some v) => (v, none)

/-- Spec-style rendering of the conflict update assignments for one column
list (used to state the amended conflict-clause claim). -/
def conflictAssigns (cols : List String) : List String :=
  cols.map (fun col =>
    MySQLDialect.QuoteIdentifier col ++ " = VALUES(" ++ MySQLDialect.QuoteIdentifier col ++ ")")

/-- Modelled from the spec: `MySQLDialect.InsertOnConflictDoNothing` is
declared in the dialect interface (src/dialect/dialect.go) but its MySQL
implementation is not among the packaged sources; MySQL expresses
do-nothing via INSERT IGNORE, and the insert builder skips an empty
clause, so the clause is modelled as empty. -/
def MySQLDialect.InsertOnConflictDoNothing : String := ""

/-- The insert builder's accumulated state (src/unnamed/part_013, current
`insertBuilder`). Executor handle, context, logger and print flag are
omitted; only plain (non-reflective) values are modelled, so a row is a
list of `Arg`s. -/
structure insertBuilder where
  table : String := ""
  columns : List String := []
  values : List (List Arg) := []
  onConflict : String := ""
  onConflictDoNothing : Bool := false
  fromSelect : Option selectBuilder := none
deriving DecidableEq, Repr

/-- NewInsertBuilder (src/unnamed/part_013). -/
def NewInsertBuilder (table : String) : insertBuilder := { table := table }

namespace insertBuilder

/-- insertBuilder.Columns. -/
def Columns (i : insertBuilder) (columns : List String) : insertBuilder :=
  { i with columns := columns }

/-- insertBuilder.Values restricted to the plain-values path (a row of
primitive arguments is appended as one VALUES row; the reflective
struct/slice paths fall outside the `Arg` model). -/
def Values (i : insertBuilder) (values : List Arg) : insertBuilder :=
  { i with values := i.values ++ [values] }

/-- insertBuilder.Ignore (src/unnamed/part_013): record the ignore conflict
mode; the keyword swap happens at render time. -/
def Ignore (i : insertBuilder) : insertBuilder := { i with onConflict := "IGNORE" }

/-- insertBuilder.OnConflictDoUpdate. -/
def OnConflictDoUpdate (i : insertBuilder) : insertBuilder := { i with onConflict := "UPDATE" }

/-- insertBuilder.OnConflictDoNothing. -/
def OnConflictDoNothing (i : insertBuilder) : insertBuilder :=
  { i with onConflictDoNothing := true }

/-- The query parts of `buildValuesSQL` after the INSERT keyword (quoted
table, optional column list, VALUES rows, optional conflict clause), in Go
append order. -/
def valuesParts (i : insertBuilder) : List String :=
  let q1 := [MySQLDialect.QuoteIdentifier i.table]
  let q2 :=
    if i.columns ≠ [] then
      q1 ++ ["(" ++ goJoin ", " (i.columns.map MySQLDialect.QuoteIdentifier) ++ ")"]
    else q1
  let q3 :=
    if i.values ≠ [] then
      q2 ++ ["VALUES",
        goJoin ", " (i.values.map (fun row =>
          "(" ++ goJoin ", " (List.replicate row.length MySQLDialect.PlaceholderFormat) ++ ")"))]
    else q2
  if i.onConflict = "UPDATE" then
    q3 ++ [MySQLDialect.InsertOnConflict i.columns i.columns []]
  else if i.onConflictDoNothing then
    (if MySQLDialect.InsertOnConflictDoNothing ≠ "" then
      q3 ++ [MySQLDialect.InsertOnConflictDoNothing] else q3)
  else q3

/-- insertBuilder.buildValuesSQL (src/unnamed/part_013): the INSERT keyword
is swapped for the dialect's ignore keyword in ignore mode, followed by the
remaining parts joined with spaces; the arguments are the flattened VALUES
rows. -/
def buildValuesSQL (i : insertBuilder) : String × List Arg :=
  (goJoin " " ((if i.onConflict = "IGNORE" then MySQLDialect.InsertIgnore else "INSERT INTO")
    :: valuesParts i), i.values.flatten)

/-- The query parts of `buildFromSelectSQL` after the INSERT keyword. -/
def fromSelectParts (i : insertBuilder) (sb : selectBuilder) : List String :=
  let q1 := [MySQLDialect.QuoteIdentifier i.table]
  let q2 :=
    if i.columns ≠ [] then
      q1 ++ ["(" ++ goJoin ", " (i.columns.map MySQLDialect.QuoteIdentifier) ++ ")"]
    else q1
  let q3 := q2 ++ [sb.ToSQL.1]
  if i.onConflict = "UPDATE" then
    q3 ++ [MySQLDialect.InsertOnConflict i.columns i.columns []]
  else if i.onConflict = "IGNORE" then q3
  else if i.onConflictDoNothing then
    (if MySQLDialect.InsertOnConflictDoNothing ≠ "" then
      q3 ++ [MySQLDialect.InsertOnConflictDoNothing] else q3)
  else q3

/-- insertBuilder.buildFromSelectSQL (src/unnamed/part_013). For MySQL the
ignore keyword is `INSERT IGNORE`, so the special ignore-without-keyword
branch collapses to adding no extra clause. -/
def buildFromSelectSQL (i : insertBuilder) (sb : selectBuilder) : String × List Arg :=
  (goJoin " " ((if i.onConflict = "IGNORE" then MySQLDialect.InsertIgnore else "INSERT INTO")
    :: fromSelectParts i sb), sb.ToSQL.2)

/-- insertBuilder.buildSQL. -/
def buildSQL (i : insertBuilder) : String × List Arg :=
  match i.fromSelect with
  | some sb => buildFromSelectSQL i sb
  | none => buildValuesSQL i

/-- insertBuilder.ToSQL. -/
def ToSQL (i : insertBuilder) : String × List Arg := i.buildSQL

end insertBuilder

/-- Pagination result (src/unnamed/part_016, `PaginationResult`); the Go
`From`/`To` fields are named `fromN`/`toN`. -/
structure PaginationResult where
  data : List Row
  total : Int
  perPage : Int
  currentPage : Int
  lastPage : Int
  fromN : Int
  toN : Int
deriving DecidableEq, Repr

/-- Keyset pagination result (src/unnamed/part_016,
`KeysetPaginationResult`); Go `any` cursors that may be nil are `Option
Arg`. -/
structure KeysetPaginationResult where
  data : List Row
  hasMore : Bool
  nextCursor : Option Arg
  prevCursor : Option Arg
deriving DecidableEq, Repr

/-- Execution model of the external database: the base result set of a
builder's query is an abstract list of rows, and the builder's
LIMIT/OFFSET slice it. Negative limits or offsets (which the real driver
would reject) are clamped by `Int.toNat` and never arise in the verified
scenarios. -/
def execRows (table : List Row) (s : selectBuilder) : List Row :=
  let afterOffset := match s.offset with
    | some o => table.drop o.toNat
    | none => table
  match s.limit with
  | some l => afterOffset.take l.toNat
  | none => afterOffset

/-- Execution model of Count(): the size of the base result set. Accurate
for a builder that carries no limit/offset, which is the hypothesis under
which Paginate's cloned count query runs. -/
def execCount (table : List Row) (s : selectBuilder) : Int :=
  (table.length : Int)

/-- selectBuilder.Paginate (src/unnamed/part_016): offset is
`(page-1)*perPage`; the total comes from Count() on a Clone() taken before
the page limit/offset are applied to the builder itself; lastPage is the
Go truncated division `(count + perPage - 1) / perPage`; from/to are the
1-based display bounds, both zero when the total is zero. Returns the
result together with the mutated builder. -/
def selectBuilder.Paginate (table : List Row) (s : selectBuilder) (page perPage : Int) :
    PaginationResult × selectBuilder :=
  let offset := (page - 1) * perPage
  let count := execCount table s.Clone
  let lastPage := Int.tdiv (count + perPage - 1) perPage
  let s2 := (s.Limit perPage).Offset offset
  let data := execRows table s2
  let fr := if 0 < count then offset + 1 else 0
  let tv := if 0 < count then offset + (data.length : Int) else 0
  ({ data := data, total := count, perPage := perPage, currentPage := page,
     lastPage := lastPage, fromN := fr, toN := tv }, s2)

/-- selectBuilder.KeysetPaginate (src/unnamed/part_016): a direction other
than `asc`/`desc` is normalised to `asc`; a non-nil last value adds the
strict keyset predicate; the column ordering follows the direction; one
extra row detects a further page; the cursors are the trimmed page's last
and first values of the keyset column. Returns the result together with
the mutated builder. -/
def selectBuilder.KeysetPaginate (table : List Row) (s : selectBuilder) (column : String)
    (lastValue : Option Arg) (perPage : Int) (direction : String) :
    KeysetPaginationResult × selectBuilder :=
  let dir := if direction ≠ "asc" ∧ direction ≠ "desc" then "asc" else direction
  let s1 := match lastValue with
    | some v => if dir = "asc" then s.Where column ">" v else s.Where column "<" v
    | none => s
  let s2 := if dir = "asc" then s1.OrderBy column else s1.OrderByDesc column
  let s3 := s2.Limit (perPage + 1)
  let data := execRows table s3
  let hasMore := decide (perPage < (data.length : Int))
  let data2 := if hasMore then data.take perPage.toNat else data
  let nextCursor := if data2 ≠ [] ∧ hasMore then data2.getLast?.bind (List.lookup column) else none
  let prevCursor := if data2 ≠ [] then data2.head?.bind (List.lookup column) else none
  ({ data := data2, hasMore := hasMore, nextCursor := nextCursor, prevCursor := prevCursor }, s3)

/-- Number of `?` placeholder characters in a rendered string. -/
def countQ (s : String) : Nat := s.data.count '?'

/-- Sum of placeholder counts over a list of fragments. -/
def countQL (l : List String) : Nat := (l.map countQ).sum

/-- The simple predicate-building calls of the select builder, as data (one
constructor per public method; group and raw calls are separate). -/
inductive WhereOp where
  | Where (column operator : String) (value : Arg)
  | WhereEq (column : String) (value : Arg)
  | WhereIn (column : String) (values : List Arg)
  | WhereNotIn (column : String) (values : List Arg)
  | WhereNull (column : String)
  | WhereNotNull (column : String)
  | WhereBetween (column : String) (lo hi : Arg)
  | WhereNotBetween (column : String) (lo hi : Arg)
  | OrWhere (column operator : String) (value : Arg)
  | OrWhereEq (column : String) (value : Arg)
  | OrWhereIn (column : String) (values : List Arg)
  | OrWhereNull (column : String)
deriving DecidableEq, Repr

/-- Dispatch one predicate call to the corresponding builder method. -/
def applyWhereOp (b : selectBuilder) : WhereOp → selectBuilder
  | .Where c o v => b.Where c o v
  | .WhereEq c v => b.WhereEq c v
  | .WhereIn c vs => b.WhereIn c vs
  | .WhereNotIn c vs => b.WhereNotIn c vs
  | .WhereNull c => b.WhereNull c
  | .WhereNotNull c => b.WhereNotNull c
  | .WhereBetween c lo hi => b.WhereBetween c lo hi
  | .WhereNotBetween c lo hi => b.WhereNotBetween c lo hi
  | .OrWhere c o v => b.OrWhere c o v
  | .OrWhereEq c v => b.OrWhereEq c v
  | .OrWhereIn c vs => b.OrWhereIn c vs
  | .OrWhereNull c => b.OrWhereNull c

/-- Apply a sequence of predicate calls left to right. -/
def applyWhereOps (b : selectBuilder) (ops : List WhereOp) : selectBuilder :=
  ops.foldl applyWhereOp b

/-- The single predicate fragment a call appends. -/
def opFrag : WhereOp → String
  | .Where c o _ =>
      MySQLDialect.QuoteIdentifier c ++ " " ++ o ++ " " ++ MySQLDialect.PlaceholderFormat
  | .WhereEq c _ =>
      MySQLDialect.QuoteIdentifier c ++ " " ++ "=" ++ " " ++ MySQLDialect.PlaceholderFormat
  | .WhereIn c vs =>
      MySQLDialect.QuoteIdentifier c ++ " IN (" ++
        goJoin ", " (List.replicate vs.length MySQLDialect.PlaceholderFormat) ++ ")"
  | .WhereNotIn c vs =>
      MySQLDialect.QuoteIdentifier c ++ " NOT IN (" ++
        goJoin ", " (List.replicate vs.length MySQLDialect.PlaceholderFormat) ++ ")"
  | .WhereNull c => MySQLDialect.QuoteIdentifier c ++ " IS NULL"
  | .WhereNotNull c => MySQLDialect.QuoteIdentifier c ++ " IS NOT NULL"
  | .WhereBetween c _ _ =>
      MySQLDialect.QuoteIdentifier c ++ " BETWEEN " ++ MySQLDialect.PlaceholderFormat ++
        " AND " ++ MySQLDialect.PlaceholderFormat
  | .WhereNotBetween c _ _ =>
      MySQLDialect.QuoteIdentifier c ++ " NOT BETWEEN " ++ MySQLDialect.PlaceholderFormat ++
        " AND " ++ MySQLDialect.PlaceholderFormat
  | .OrWhere c o _ =>
      "OR " ++ MySQLDialect.QuoteIdentifier c ++ " " ++ o ++ " " ++
        MySQLDialect.PlaceholderFormat
  | .OrWhereEq c _ =>
      "OR " ++ MySQLDialect.QuoteIdentifier c ++ " " ++ "=" ++ " " ++
        MySQLDialect.PlaceholderFormat
  | .OrWhereIn c vs =>
      "OR " ++ MySQLDialect.QuoteIdentifier c ++ " IN (" ++
        goJoin ", " (List.replicate vs.length MySQLDialect.PlaceholderFormat) ++ ")"
  | .OrWhereNull c => "OR " ++ MySQLDialect.QuoteIdentifier c ++ " IS NULL"

/-- The arguments a call appends, in order. -/
def opArgs : WhereOp → List Arg
  | .Where _ _ v => [v]
  | .WhereEq _ v => [v]
  | .WhereIn _ vs => vs
  | .WhereNotIn _ vs => vs
  | .WhereNull _ => []
  | .WhereNotNull _ => []
  | .WhereBetween _ lo hi => [lo, hi]
  | .WhereNotBetween _ lo hi => [lo, hi]
  | .OrWhere _ _ v => [v]
  | .OrWhereEq _ v => [v]
  | .OrWhereIn _ vs => vs
  | .OrWhereNull _ => []

/-- A call is clean when its column and operator strings contain no `?`
character (the amended hypothesis of the placeholder-alignment claim). -/
def opClean : WhereOp → Prop
  | .Where c o _ => countQ c = 0 ∧ countQ o = 0
  | .WhereEq c _ => countQ c = 0
  | .WhereIn c _ => countQ c = 0
  | .WhereNotIn c _ => countQ c = 0
  | .WhereNull c => countQ c = 0
  | .WhereNotNull c => countQ c = 0
  | .WhereBetween c _ _ => countQ c = 0
  | .WhereNotBetween c _ _ => countQ c = 0
  | .OrWhere c o _ => countQ c = 0 ∧ countQ o = 0
  | .OrWhereEq c _ => countQ c = 0
  | .OrWhereIn c _ => countQ c = 0
  | .OrWhereNull c => countQ c = 0

instance (op : WhereOp) : Decidable (opClean op) := by
  cases op <;> simp only [opClean] <;> infer_instance

/-- Rendering rule of the WHERE clause as the specification states it: the
fragment at index 0 is emitted as-is, every later fragment keeps its text
when it already starts with `AND `, `OR ` or `(` and otherwise receives an
`AND ` in front. -/
def specConnective (i : Nat) (frag : String) : String :=
  if i = 0 then frag
  else if goHasPre frag "AND " || goHasPre frag "OR " || goHasPre frag "(" then frag
  else "AND " ++ frag

/-- Specification-side WHERE rendering: index-aware connective insertion,
single-space join, then stripping of a leading `AND ` or `OR ` token. -/
def specWhereRender (frags : List String) : String :=
  goTrimPre (goTrimPre (goJoin " " (frags.mapIdx specConnective)) "AND ") "OR "

/-!
Heap model of Go slices, for the clone-independence claim. A Go slice value
held in a builder field is a reference `(backing array id, length)` into a
heap of backing arrays; the capacity is the backing array's size (every
slice in the select builder starts at array offset 0, since the code never
re-slices). `append` writes in place when spare capacity exists and
otherwise copies into a freshly allocated array, exactly as the Go runtime
does; the model allocates with exact capacity, which is observationally
equivalent here because a freshly allocated array is referenced by a single
slice value. -/

/-- A heap of backing arrays; an array id is its index. -/
structure Heap (α : Type) where
  arrays : List (List α)
deriving DecidableEq, Repr

/-- Contents of a backing array (its length is the capacity). -/
def Heap.read (h : Heap α) (i : Nat) : List α := h.arrays.getD i []

/-- Overwrite a backing array in place. -/
def Heap.write (h : Heap α) (i : Nat) (a : List α) : Heap α := ⟨h.arrays.set i a⟩

/-- Allocate a fresh backing array, returning its id. -/
def Heap.alloc (h : Heap α) (a : List α) : Heap α × Nat :=
  (⟨h.arrays ++ [a]⟩, h.arrays.length)

/-- A Go slice value: backing array id and length. -/
structure GoSlice where
  id : Nat
  len : Nat
deriving DecidableEq, Repr

/-- The elements a slice denotes. -/
def readSlice (h : Heap α) (s : GoSlice) : List α := (h.read s.id).take s.len

/-- Go `append(s, x)`: write in place when capacity remains, otherwise copy
into a fresh array. -/
def sliceAppend (h : Heap α) (s : GoSlice) (x : α) : Heap α × GoSlice :=
  if s.len < (h.read s.id).length then
    (h.write s.id ((h.read s.id).set s.len x), ⟨s.id, s.len + 1⟩)
  else
    let p := h.alloc (readSlice h s ++ [x])
    (p.1, ⟨p.2, s.len + 1⟩)

/-- Go `append(s, xs...)` as iterated single appends. -/
def sliceAppendMany (h : Heap α) (s : GoSlice) (xs : List α) : Heap α × GoSlice :=
  xs.foldl (fun p x => sliceAppend p.1 p.2 x) (h, s)

/-- Go `make` followed by `copy`: a fresh array holding the given data. -/
def allocSlice (h : Heap α) (data : List α) : Heap α × GoSlice :=
  let p := h.alloc data
  (p.1, ⟨p.2, data.length⟩)

/-- The two typed heaps backing a running program: string slices and
argument slices. -/
structure World where
  strH : Heap String
  argH : Heap Arg
deriving DecidableEq, Repr

/-- The select builder with its slice-valued fields as heap references
(src/unnamed/part_016, `selectBuilder`, at the Go memory level). -/
structure hSelectBuilder where
  columns : GoSlice
  table : String
  joins : GoSlice
  wheres : GoSlice
  whereArgs : GoSlice
  orders : GoSlice
  groups : GoSlice
  havings : GoSlice
  havingArgs : GoSlice
  limit : Option Int
  offset : Option Int
deriving DecidableEq, Repr

/-- Dereference every slice field, recovering the value-level builder. -/
def readout (w : World) (b : hSelectBuilder) : selectBuilder :=
  { columns := readSlice w.strH b.columns, table := b.table
    joins := readSlice w.strH b.joins, wheres := readSlice w.strH b.wheres
    whereArgs := readSlice w.argH b.whereArgs, orders := readSlice w.strH b.orders
    groups := readSlice w.strH b.groups, havings := readSlice w.strH b.havings
    havingArgs := readSlice w.argH b.havingArgs, limit := b.limit, offset := b.offset }

/-- ToSQL at the heap level: dereference, then render. -/
def hToSQL (w : World) (b : hSelectBuilder) : String × List Arg :=
  (readout w b).buildSQL

/-- selectBuilder.Where at the heap level. -/
def hWhere (w : World) (b : hSelectBuilder) (column operator : String) (value : Arg) :
    World × hSelectBuilder :=
  let p := sliceAppend w.strH b.wheres
    (MySQLDialect.QuoteIdentifier column ++ " " ++ operator ++ " " ++
      MySQLDialect.PlaceholderFormat)
  let q := sliceAppend w.argH b.whereArgs value
  (⟨p.1, q.1⟩, { b with wheres := p.2, whereArgs := q.2 })

/-- selectBuilder.OrWhere at the heap level. -/
def hOrWhere (w : World) (b : hSelectBuilder) (column operator : String) (value : Arg) :
    World × hSelectBuilder :=
  let p := sliceAppend w.strH b.wheres
    ("OR " ++ MySQLDialect.QuoteIdentifier column ++ " " ++ operator ++ " " ++
      MySQLDialect.PlaceholderFormat)
  let q := sliceAppend w.argH b.whereArgs value
  (⟨p.1, q.1⟩, { b with wheres := p.2, whereArgs := q.2 })

/-- selectBuilder.WhereIn at the heap level. -/
def hWhereIn (w : World) (b : hSelectBuilder) (column : String) (values : List Arg) :
    World × hSelectBuilder :=
  let p := sliceAppend w.strH b.wheres
    (MySQLDialect.QuoteIdentifier column ++ " IN (" ++
      goJoin ", " (List.replicate values.length MySQLDialect.PlaceholderFormat) ++ ")")
  let q := sliceAppendMany w.argH b.whereArgs values
  (⟨p.1, q.1⟩, { b with wheres := p.2, whereArgs := q.2 })

/-- selectBuilder.WhereNull at the heap level. -/
def hWhereNull (w : World) (b : hSelectBuilder) (column : String) :
    World × hSelectBuilder :=
  let p := sliceAppend w.strH b.wheres (MySQLDialect.QuoteIdentifier column ++ " IS NULL")
  (⟨p.1, w.argH⟩, { b with wheres := p.2 })

/-- selectBuilder.WhereRaw at the heap level. -/
def hWhereRaw (w : World) (b : hSelectBuilder) (condition : String) (args : List Arg) :
    World × hSelectBuilder :=
  let p := sliceAppend w.strH b.wheres condition
  let q := sliceAppendMany w.argH b.whereArgs args
  (⟨p.1, q.1⟩, { b with wheres := p.2, whereArgs := q.2 })

/-- selectBuilder.From at the heap level (plain field write). -/
def hFrom (w : World) (b : hSelectBuilder) (table : String) : World × hSelectBuilder :=
  (w, { b with table := table })

/-- selectBuilder.InnerJoin at the heap level. -/
def hInnerJoin (w : World) (b : hSelectBuilder) (table condition : String) :
    World × hSelectBuilder :=
  let p := sliceAppend w.strH b.joins
    ("INNER JOIN " ++ quoteTableNameWithAlias table ++ " ON " ++ quoteJoinCondition condition)
  (⟨p.1, w.argH⟩, { b with joins := p.2 })

/-- selectBuilder.LeftJoin at the heap level. -/
def hLeftJoin (w : World) (b : hSelectBuilder) (table condition : String) :
    World × hSelectBuilder :=
  let p := sliceAppend w.strH b.joins
    ("LEFT JOIN " ++ quoteTableNameWithAlias table ++ " ON " ++ quoteJoinCondition condition)
  (⟨p.1, w.argH⟩, { b with joins := p.2 })

/-- selectBuilder.OrderBy at the heap level. -/
def hOrderBy (w : World) (b : hSelectBuilder) (column : String) : World × hSelectBuilder :=
  let p := sliceAppend w.strH b.orders (MySQLDialect.SelectOrderBy column false)
  (⟨p.1, w.argH⟩, { b with orders := p.2 })

/-- selectBuilder.OrderByDesc at the heap level. -/
def hOrderByDesc (w : World) (b : hSelectBuilder) (column : String) : World × hSelectBuilder :=
  let p := sliceAppend w.strH b.orders (MySQLDialect.SelectOrderBy column true)
  (⟨p.1, w.argH⟩, { b with orders := p.2 })

/-- selectBuilder.GroupBy at the heap level. -/
def hGroupBy (w : World) (b : hSelectBuilder) (columns : List String) :
    World × hSelectBuilder :=
  let p := sliceAppendMany w.strH b.groups (columns.map MySQLDialect.QuoteIdentifier)
  (⟨p.1, w.argH⟩, { b with groups := p.2 })

/-- selectBuilder.Having at the heap level. -/
def hHaving (w : World) (b : hSelectBuilder) (condition : String) (args : List Arg) :
    World × hSelectBuilder :=
  let p := sliceAppend w.strH b.havings condition
  let q := sliceAppendMany w.argH b.havingArgs args
  (⟨p.1, q.1⟩, { b with havings := p.2, havingArgs := q.2 })

/-- selectBuilder.Limit at the heap level (fresh pointer, field write). -/
def hLimit (w : World) (b : hSelectBuilder) (n : Int) : World × hSelectBuilder :=
  (w, { b with limit := some n })

/-- selectBuilder.Offset at the heap level. -/
def hOffset (w : World) (b : hSelectBuilder) (n : Int) : World × hSelectBuilder :=
  (w, { b with offset := some n })

/-- selectBuilder.SetColumns at the heap level: the variadic argument is a
fresh backing array. -/
def hSetColumns (w : World) (b : hSelectBuilder) (columns : List String) :
    World × hSelectBuilder :=
  let p := allocSlice w.strH columns
  (⟨p.1, w.argH⟩, { b with columns := p.2 })

/-- selectBuilder.Clone at the heap level (src/unnamed/part_016): read every
slice of the original, then allocate fresh backing arrays holding copies
(`make` + `copy`), leaving the original's arrays untouched. -/
def hClone (w : World) (b : hSelectBuilder) : World × hSelectBuilder :=
  let cols := readSlice w.strH b.columns
  let joins := readSlice w.strH b.joins
  let wheres := readSlice w.strH b.wheres
  let orders := readSlice w.strH b.orders
  let groups := readSlice w.strH b.groups
  let havings := readSlice w.strH b.havings
  let whereArgs := readSlice w.argH b.whereArgs
  let havingArgs := readSlice w.argH b.havingArgs
  let p1 := allocSlice w.strH cols
  let p2 := allocSlice p1.1 joins
  let p3 := allocSlice p2.1 wheres
  let p4 := allocSlice p3.1 orders
  let p5 := allocSlice p4.1 groups
  let p6 := allocSlice p5.1 havings
  let q1 := allocSlice w.argH whereArgs
  let q2 := allocSlice q1.1 havingArgs
  (⟨p6.1, q2.1⟩,
   { columns := p1.2, table := b.table, joins := p2.2, wheres := p3.2
     whereArgs := q1.2, orders := p4.2, groups := p5.2, havings := p6.2
     havingArgs := q2.2, limit := b.limit, offset := b.offset })

/-- The public mutating calls considered by the clone-independence claim,
as data. -/
inductive HOp where
  | hWhere (column operator : String) (value : Arg)
  | hOrWhere (column operator : String) (value : Arg)
  | hWhereIn (column : String) (values : List Arg)
  | hWhereNull (column : String)
  | hWhereRaw (condition : String) (args : List Arg)
  | hFrom (table : String)
  | hInnerJoin (table condition : String)
  | hLeftJoin (table condition : String)
  | hOrderBy (column : String)
  | hOrderByDesc (column : String)
  | hGroupBy (columns : List String)
  | hHaving (condition : String) (args : List Arg)
  | hLimit (n : Int)
  | hOffset (n : Int)
  | hSetColumns (columns : List String)
deriving DecidableEq, Repr

/-- Dispatch one mutating call at the heap level. -/
def applyHOp (p : World × hSelectBuilder) : HOp → World × hSelectBuilder
  | .hWhere c o v => hWhere p.1 p.2 c o v
  | .hOrWhere c o v => hOrWhere p.1 p.2 c o v
  | .hWhereIn c vs => hWhereIn p.1 p.2 c vs
  | .hWhereNull c => hWhereNull p.1 p.2 c
  | .hWhereRaw c args => hWhereRaw p.1 p.2 c args
  | .hFrom t => hFrom p.1 p.2 t
  | .hInnerJoin t c => hInnerJoin p.1 p.2 t c
  | .hLeftJoin t c => hLeftJoin p.1 p.2 t c
  | .hOrderBy c => hOrderBy p.1 p.2 c
  | .hOrderByDesc c => hOrderByDesc p.1 p.2 c
  | .hGroupBy cs => hGroupBy p.1 p.2 cs
  | .hHaving c args => hHaving p.1 p.2 c args
  | .hLimit n => hLimit p.1 p.2 n
  | .hOffset n => hOffset p.1 p.2 n
  | .hSetColumns cs => hSetColumns p.1 p.2 cs

/-- Apply a sequence of mutating calls left to right. -/
def applyHOps (p : World × hSelectBuilder) (ops : List HOp) : World × hSelectBuilder :=
  ops.foldl applyHOp p

/-- The string-heap array ids a builder references. -/
def strIds (b : hSelectBuilder) : List Nat :=
  [b.columns.id, b.joins.id, b.wheres.id, b.orders.id, b.groups.id, b.havings.id]

/-- The argument-heap array ids a builder references. -/
def argIds (b : hSelectBuilder) : List Nat :=
  [b.whereArgs.id, b.havingArgs.id]

/-- Well-formedness: every referenced array id is allocated. -/
def idsBelow (w : World) (b : hSelectBuilder) : Prop :=
  (∀ i ∈ strIds b, i < w.strH.arrays.length) ∧
  (∀ i ∈ argIds b, i < w.argH.arrays.length)

/-- Two builders share no backing arrays. -/
def idsDisjoint (b c : hSelectBuilder) : Prop :=
  (∀ i ∈ strIds b, i ∉ strIds c) ∧
  (∀ i ∈ argIds b, i ∉ argIds c)

/-!
Supporting lemmas.
-/

theorem string_data_ext {s t : String} (h : s.data = t.data) : s = t := by
  cases s; cases t; exact congrArg String.mk h

theorem data_append (s t : String) : (s ++ t).data = s.data ++ t.data := by
  cases s; cases t; rfl

theorem goJoin_cons_of_ne (sep x : String) (l : List String) (h : l ≠ []) :
    goJoin sep (x :: l) = x ++ sep ++ goJoin sep l := by
  cases l with
  | nil => exact absurd rfl h
  | cons y ys => rfl

theorem countQ_append (s t : String) : countQ (s ++ t) = countQ s + countQ t := by
  simp [countQ, data_append]

theorem countQ_quote (c : String) :
    countQ (MySQLDialect.QuoteIdentifier c) = countQ c := by
  have h : ∀ l : List Char, (escTicks l).count '?' = l.count '?' := by
    intro l
    induction l with
    | nil => rfl
    | cons a as ih =>
      by_cases ha : a = '`'
      · subst ha
        simp [escTicks, ih, List.count_cons]
      · have : (a == '`') = false := by simpa using ha
        simp [escTicks, this, ih, List.count_cons]
  simp [MySQLDialect.QuoteIdentifier, countQ, data_append, h]

theorem countQ_goJoin (sep : String) (hsep : countQ sep = 0) (l : List String) :
    countQ (goJoin sep l) = countQL l := by
  induction l with
  | nil => rfl
  | cons x xs ih =>
    cases xs with
    | nil => simp [goJoin, countQL]
    | cons y ys =>
      rw [goJoin_cons_of_ne sep x (y :: ys) (by simp)]
      simp [countQ_append, hsep, countQL] at ih ⊢
      omega

theorem countQ_goTrimPre (s p : String) (hp : countQ p = 0) :
    countQ (goTrimPre s p) = countQ s := by
  unfold goTrimPre
  by_cases h : goHasPre s p
  · have hpre : p.data <+: s.data := by
      rw [← List.isPrefixOf_iff_prefix]; exact h
    obtain ⟨rest, hrest⟩ := hpre
    simp only [h, if_true]
    simp only [countQ] at hp ⊢
    have hdrop : s.data.drop p.data.length = rest := by
      rw [← hrest, List.drop_left]
    rw [hdrop, ← hrest]
    simp [hp]
  · simp [h]

theorem countQ_addConnectives (ws : List String) :
    countQL (addConnectives ws) = countQL ws := by
  cases ws with
  | nil => rfl
  | cons w rest =>
    simp only [addConnectives, countQL, List.map_cons, List.sum_cons, List.map_map]
    congr 1
    induction rest with
    | nil => rfl
    | cons x xs ih =>
      simp only [List.map_cons, List.sum_cons, Function.comp] at ih ⊢
      rw [ih]
      congr 1
      split
      · rfl
      · rw [countQ_append, show countQ "AND " = 0 from by decide, Nat.zero_add]


theorem countQ_whereClauseOf (ws : List String) :
    countQ (whereClauseOf ws) = countQL ws := by
  unfold whereClauseOf
  rw [countQ_goTrimPre _ _ (by decide), countQ_goTrimPre _ _ (by decide),
    countQ_goJoin _ (by decide), countQ_addConnectives]

theorem goHasPre_append_self (p t : String) : goHasPre (p ++ t) p = true := by
  simp only [goHasPre, data_append]
  rw [List.isPrefixOf_iff_prefix]
  exact List.prefix_append ..

/-!
Claim C7: Sum/Avg treat a NULL aggregate as numeric zero with no error.
-/

/-- C7: Sum (and Avg) over a result set whose aggregate scans as SQL NULL
return numeric zero together with no error — not an error and not an
absent value. -/
theorem sum_avg_null_yields_zero (s : selectBuilder) (column : String)
    (exec : selectBuilder → Except DbError (Option Rat))
    (hs : exec { s with columns := ["SUM(" ++ column ++ ") as sum"] } = .ok none)
    (ha : exec { s with columns := ["AVG(" ++ column ++ ") as avg"] } = .ok none) :
    s.Sum column exec = (0, none) ∧ s.Avg column exec = (0, none) := by
  constructor
  · simp [selectBuilder.Sum, hs]
  · simp [selectBuilder.Avg, ha]

/-- Witness for C7 at a concrete builder and executor. -/
theorem sum_avg_null_yields_zero_witness :
    (NewSelectBuilder []).Sum "age" (fun _ => .ok none) = (0, none) ∧
    (NewSelectBuilder []).Avg "age" (fun _ => .ok none) = (0, none) :=
  sum_avg_null_yields_zero (NewSelectBuilder []) "age" (fun _ => .ok none) rfl rfl

/-!
Claim C10: a group callback that adds no fragments leaves the outer builder
observably unchanged.
-/

/-- C10: WhereGroup and OrWhereGroup with a callback that adds no predicate
fragments to the fresh group builder return the outer builder unchanged, so
its rendered SQL and argument list are untouched. -/
theorem whereGroup_empty_callback (s : selectBuilder) (fn : selectBuilder → selectBuilder)
    (h : (fn {}).wheres = []) :
    s.WhereGroup fn = s ∧ s.OrWhereGroup fn = s ∧
    (s.WhereGroup fn).ToSQL = s.ToSQL ∧ (s.OrWhereGroup fn).ToSQL = s.ToSQL := by
  have h1 : s.WhereGroup fn = s := by simp [selectBuilder.WhereGroup, h]
  have h2 : s.OrWhereGroup fn = s := by simp [selectBuilder.OrWhereGroup, h]
  exact ⟨h1, h2, by rw [h1], by rw [h2]⟩

/-- Witness for C10: the identity callback on a builder that already has a
predicate. -/
theorem whereGroup_empty_callback_witness :
    (((NewSelectBuilder []).From "users").Where "a" "=" (Arg.i 1)).WhereGroup id =
      ((NewSelectBuilder []).From "users").Where "a" "=" (Arg.i 1) ∧
    (((NewSelectBuilder []).From "users").Where "a" "=" (Arg.i 1)).OrWhereGroup id =
      ((NewSelectBuilder []).From "users").Where "a" "=" (Arg.i 1) ∧
    ((((NewSelectBuilder []).From "users").Where "a" "=" (Arg.i 1)).WhereGroup id).ToSQL =
      (((NewSelectBuilder []).From "users").Where "a" "=" (Arg.i 1)).ToSQL ∧
    ((((NewSelectBuilder []).From "users").Where "a" "=" (Arg.i 1)).OrWhereGroup id).ToSQL =
      (((NewSelectBuilder []).From "users").Where "a" "=" (Arg.i 1)).ToSQL :=
  whereGroup_empty_callback _ id rfl

/-!
Claim C4: the MySQL conflict-clause renderer. The claim says assignments
appear for exactly (updatable ∩ requested) ∪ (updatable \ excluded); the
code ignores the first list and renders the requested and the excluded
columns alike.
-/

/-- C4 counterexample: with updatable columns `a, b`, no requested columns
and `b` excluded, the claimed assignment set is exactly `a`, yet the
renderer emits no assignment for `a` and does emit one for the excluded
column `b`. -/
theorem insertOnConflict_counterexample :
    MySQLDialect.InsertOnConflict ["a", "b"] [] ["b"] =
      "ON DUPLICATE KEY UPDATE `b` = VALUES(`b`)" ∧
    (["a", "b"] ∩ ([] : List String)) ∪ (["a", "b"] \ ["b"]) = ["a"] ∧
    ¬ ("`a`".data <:+: ("ON DUPLICATE KEY UPDATE `b` = VALUES(`b`)").data) ∧
    ("`b` = VALUES(`b`)".data <:+:
      ("ON DUPLICATE KEY UPDATE `b` = VALUES(`b`)").data) := by
  refine ⟨by decide, by decide, by decide, by decide⟩

/-- C4 amended: the renderer emits `col = VALUES(col)` for exactly the
requested columns followed by the excluded columns (the excluded list acts
as a second include-list), renders the bare keyword when both lists are
empty, and ignores the updatable-column list entirely. -/
theorem insertOnConflict_amended (columns c2 updateColumns updateExcluded : List String) :
    (updateColumns = [] → updateExcluded = [] →
      MySQLDialect.InsertOnConflict columns updateColumns updateExcluded =
        "ON DUPLICATE KEY UPDATE") ∧
    (updateColumns ≠ [] ∨ updateExcluded ≠ [] →
      MySQLDialect.InsertOnConflict columns updateColumns updateExcluded =
        "ON DUPLICATE KEY UPDATE " ++
          goJoin ", " (conflictAssigns updateColumns ++ conflictAssigns updateExcluded)) ∧
    MySQLDialect.InsertOnConflict columns updateColumns updateExcluded =
      MySQLDialect.InsertOnConflict c2 updateColumns updateExcluded := by
  refine ⟨?_, ?_, rfl⟩
  · intro h1 h2
    simp [MySQLDialect.InsertOnConflict, h1, h2]
  · intro h
    unfold MySQLDialect.InsertOnConflict
    rw [if_neg (by tauto)]
    simp [conflictAssigns, List.map_append]

/-- Witness for the amended C4 at concrete column lists. -/
theorem insertOnConflict_amended_witness :
    MySQLDialect.InsertOnConflict ["x"] ["a"] ["b"] =
      "ON DUPLICATE KEY UPDATE " ++
        goJoin ", " (conflictAssigns ["a"] ++ conflictAssigns ["b"]) :=
  (insertOnConflict_amended ["x"] ["y"] ["a"] ["b"]).2.1 (Or.inl (by decide))

/-!
Claim C5: Ignore() swaps the INSERT keyword for the dialect's ignore
keyword, leaving everything else of the rendered statement unchanged.
-/

theorem valuesParts_ignore (b : insertBuilder) (h2 : b.onConflict = "") :
    (b.Ignore).valuesParts = b.valuesParts := by
  simp [insertBuilder.Ignore, insertBuilder.valuesParts, h2]

theorem valuesParts_ne_nil (b : insertBuilder) : b.valuesParts ≠ [] := by
  unfold insertBuilder.valuesParts
  repeat' split
  all_goals simp

/-- C5: on a builder in the default conflict mode with a VALUES body,
Ignore() changes exactly the statement keyword: the rendered SQL becomes
`INSERT IGNORE ...` where it was `INSERT INTO ...` with an identical tail
(table, column list, VALUES clause) and an identical argument list. -/
theorem ignore_swaps_insert_keyword (b : insertBuilder)
    (h1 : b.fromSelect = none) (h2 : b.onConflict = "") :
    ∃ t args, b.ToSQL = ("INSERT INTO " ++ t, args) ∧
      (b.Ignore).ToSQL = ("INSERT IGNORE " ++ t, args) := by
  refine ⟨goJoin " " b.valuesParts, b.values.flatten, ?_, ?_⟩
  · simp only [insertBuilder.ToSQL, insertBuilder.buildSQL, h1,
      insertBuilder.buildValuesSQL, h2]
    rw [if_neg (by decide)]
    rw [goJoin_cons_of_ne _ _ _ (valuesParts_ne_nil b)]
    rw [show ("INSERT INTO " : String) = "INSERT INTO" ++ " " from rfl,
      String.append_assoc]
  · have hfs : (b.Ignore).fromSelect = none := by
      simpa [insertBuilder.Ignore] using h1
    simp only [insertBuilder.ToSQL, insertBuilder.buildSQL, hfs,
      insertBuilder.buildValuesSQL]
    rw [show (b.Ignore).onConflict = "IGNORE" from rfl]
    rw [if_pos rfl, valuesParts_ignore b h2]
    rw [show (b.Ignore).values = b.values from rfl]
    rw [goJoin_cons_of_ne _ _ _ (valuesParts_ne_nil b)]
    rw [show MySQLDialect.InsertIgnore = "INSERT IGNORE" from rfl,
      show ("INSERT IGNORE " : String) = "INSERT IGNORE" ++ " " from rfl,
      String.append_assoc]

/-!
Claim C2: the WHERE-clause rendering rule, stated the way the
specification words it, coincides with the code's renderer; in particular a
builder whose only predicate call was OrWhere renders without a leading OR.
-/

theorem mapIdx_of_const (g : Nat → String → String) (r : String → String)
    (hg : ∀ i x, g i x = r x) (l : List String) : l.mapIdx g = l.map r := by
  induction l generalizing g with
  | nil => rfl
  | cons a as ih =>
    rw [List.mapIdx_cons, hg 0 a, List.map_cons]
    exact congrArg _ (ih _ (fun i x => hg (i + 1) x))

theorem addConnectives_eq_mapIdx (ws : List String) :
    addConnectives ws = ws.mapIdx specConnective := by
  cases ws with
  | nil => rfl
  | cons w rest =>
    rw [List.mapIdx_cons]
    have h0 : specConnective 0 w = w := by simp [specConnective]
    rw [h0]
    unfold addConnectives
    exact congrArg _
      (mapIdx_of_const _ _ (fun i x => by simp [specConnective]) rest).symm

/-- C2: the code's WHERE clause equals the specification-worded rendering
(index-0 fragment as-is, `AND ` added unless the fragment starts with
`AND `, `OR ` or `(`, space join, then leading-token strip) on every
fragment list; and a builder whose only predicate call was OrWhere renders
its WHERE clause without the leading OR. -/
theorem whereRender_matches_spec :
    (∀ ws, whereClauseOf ws = specWhereRender ws) ∧
    ((((NewSelectBuilder []).From "users").OrWhere "age" ">" (Arg.i 5)).ToSQL =
      ("SELECT * FROM `users` WHERE `age` > ?", [Arg.i 5])) := by
  constructor
  · intro ws
    unfold whereClauseOf specWhereRender
    rw [addConnectives_eq_mapIdx]
  · decide

/-!
Claim C3: WhereGroup renders `(...)` with no leading connective on a
builder without predicates, and `AND (...)` after existing predicates.
-/

theorem goHasPre_paren_and (t : String) : goHasPre ("(" ++ t) "AND " = false := by
  have h : ("(" ++ t).data = '(' :: t.data := by cases t; rfl
  simp [goHasPre, h, List.isPrefixOf]

theorem goHasPre_paren_or (t : String) : goHasPre ("(" ++ t) "OR " = false := by
  have h : ("(" ++ t).data = '(' :: t.data := by cases t; rfl
  simp [goHasPre, h, List.isPrefixOf]

theorem whereClauseOf_single_paren (t : String) :
    whereClauseOf ["(" ++ t] = "(" ++ t := by
  unfold whereClauseOf addConnectives
  simp [goJoin, goTrimPre, goHasPre_paren_and, goHasPre_paren_or]

/-- C3: when the callback produced fragments, WhereGroup on a builder with
no existing predicate fragments appends the group as `(...)` — which also
renders as the whole WHERE clause, with no leading connective — while on a
builder that already has fragments it appends the group as `AND (...)`. -/
theorem whereGroup_paren (s : selectBuilder) (fn : selectBuilder → selectBuilder)
    (w : String) (ws : List String) (h : (fn {}).wheres = w :: ws) :
    (s.wheres = [] →
      (s.WhereGroup fn).wheres =
        ["(" ++ (goJoin " " (addConnectives ((fn {}).wheres)) ++ ")")] ∧
      whereClauseOf (s.WhereGroup fn).wheres =
        "(" ++ (goJoin " " (addConnectives ((fn {}).wheres)) ++ ")")) ∧
    (s.wheres ≠ [] →
      (s.WhereGroup fn).wheres =
        s.wheres ++ ["AND (" ++ (goJoin " " (addConnectives ((fn {}).wheres)) ++ ")")]) := by
  have hne : (fn ({} : selectBuilder)).wheres ≠ [] := by rw [h]; simp
  constructor
  · intro hs
    have hgrp : (s.WhereGroup fn).wheres =
        ["(" ++ (goJoin " " (addConnectives ((fn {}).wheres)) ++ ")")] := by
      unfold selectBuilder.WhereGroup
      rw [if_neg hne, if_neg (by simpa using hs), hs]
      simp [String.append_assoc]
    exact ⟨hgrp, by rw [hgrp, whereClauseOf_single_paren]⟩
  · intro hs
    unfold selectBuilder.WhereGroup
    rw [if_neg hne, if_pos hs]
    simp [String.append_assoc]

/-- Witness for C3: a concrete group with two inner predicates appended to
an empty-predicate builder and to a builder with one predicate. -/
theorem whereGroup_paren_witness :
    ((((NewSelectBuilder []).From "users").WhereGroup
        (fun b => (b.Where "a" "=" (Arg.i 1)).Where "c" "=" (Arg.i 2))).wheres =
      ["(`a` = ? AND `c` = ?)"]) ∧
    (((((NewSelectBuilder []).From "users").Where "s" "=" (Arg.i 0)).WhereGroup
        (fun b => (b.Where "a" "=" (Arg.i 1)).Where "c" "=" (Arg.i 2))).wheres =
      ["`s` = ?", "AND (`a` = ? AND `c` = ?)"]) := by
  have h1 := (whereGroup_paren ((NewSelectBuilder []).From "users")
    (fun b => (b.Where "a" "=" (Arg.i 1)).Where "c" "=" (Arg.i 2))
    "`a` = ?" ["`c` = ?"] (by decide)).1 (by decide)
  have h2 := (whereGroup_paren (((NewSelectBuilder []).From "users").Where "s" "=" (Arg.i 0))
    (fun b => (b.Where "a" "=" (Arg.i 1)).Where "c" "=" (Arg.i 2))
    "`a` = ?" ["`c` = ?"] (by decide)).2 (by decide)
  constructor
  · rw [h1.1]; decide
  · rw [h2]; decide

/-- Witness for C5 at a concrete insert builder. -/
theorem ignore_swaps_insert_keyword_witness :
    ∃ t args,
      (((NewInsertBuilder "users").Columns ["name", "email"]).Values
        [Arg.s "John", Arg.s "j@x.com"]).ToSQL = ("INSERT INTO " ++ t, args) ∧
      ((((NewInsertBuilder "users").Columns ["name", "email"]).Values
        [Arg.s "John", Arg.s "j@x.com"]).Ignore).ToSQL = ("INSERT IGNORE " ++ t, args) :=
  ignore_swaps_insert_keyword _ rfl rfl

/-!
Claim C1: placeholder/argument alignment for sequences of predicate calls.
The universal claim fails when a call parameter itself contains `?`; the
amended claim restricts the column/operator strings to be `?`-free.
-/

theorem countQ_ph : countQ MySQLDialect.PlaceholderFormat = 1 := by decide

theorem countQ_replicateJoin (n : Nat) :
    countQ (goJoin ", " (List.replicate n MySQLDialect.PlaceholderFormat)) = n := by
  rw [countQ_goJoin _ (by decide)]
  induction n with
  | zero => rfl
  | succ m ih =>
    rw [List.replicate_succ]
    simp only [countQL, List.map_cons, List.sum_cons] at ih ⊢
    rw [ih, countQ_ph]
    omega

theorem applyWhereOp_state (b : selectBuilder) (op : WhereOp) :
    applyWhereOp b op = { b with wheres := b.wheres ++ [opFrag op],
                                 whereArgs := b.whereArgs ++ opArgs op } := by
  cases op <;>
    simp [applyWhereOp, opFrag, opArgs, selectBuilder.Where, selectBuilder.WhereEq,
      selectBuilder.WhereIn, selectBuilder.WhereNotIn, selectBuilder.WhereNull,
      selectBuilder.WhereNotNull, selectBuilder.WhereBetween, selectBuilder.WhereNotBetween,
      selectBuilder.OrWhere, selectBuilder.OrWhereEq, selectBuilder.OrWhereIn,
      selectBuilder.OrWhereNull]

theorem applyWhereOps_state (ops : List WhereOp) (b : selectBuilder) :
    applyWhereOps b ops = { b with wheres := b.wheres ++ ops.map opFrag,
                                   whereArgs := b.whereArgs ++ (ops.map opArgs).flatten } := by
  induction ops generalizing b with
  | nil => simp [applyWhereOps]
  | cons op rest ih =>
    show applyWhereOps (applyWhereOp b op) rest = _
    rw [ih, applyWhereOp_state]
    simp

theorem countQ_opFrag (op : WhereOp) (h : opClean op) :
    countQ (opFrag op) = (opArgs op).length := by
  cases op <;>
    simp only [opClean] at h <;>
    simp [opFrag, opArgs, countQ_append, countQ_quote, countQ_replicateJoin, countQ_ph,
      h, show countQ " " = 0 from by decide, show countQ "OR " = 0 from by decide,
      show countQ " IN (" = 0 from by decide, show countQ ")" = 0 from by decide,
      show countQ " NOT IN (" = 0 from by decide,
      show countQ " IS NULL" = 0 from by decide,
      show countQ " IS NOT NULL" = 0 from by decide,
      show countQ " BETWEEN " = 0 from by decide,
      show countQ " NOT BETWEEN " = 0 from by decide,
      show countQ " AND " = 0 from by decide, show countQ "=" = 0 from by decide]

theorem countQL_append (a b : List String) : countQL (a ++ b) = countQL a + countQL b := by
  simp [countQL]

theorem countQL_opFrags (ls : List WhereOp) (hl : ∀ op ∈ ls, opClean op) :
    countQL (ls.map opFrag) = ((ls.map opArgs).flatten).length := by
  induction ls with
  | nil => rfl
  | cons op rest ih =>
    simp only [List.map_cons, List.flatten_cons, List.length_append, countQL,
      List.sum_cons] at ih ⊢
    rw [countQ_opFrag op (hl op (by simp)), ih (fun o ho => hl o (by simp [ho]))]

theorem countQL_map_quote (cols : List String) (hc : ∀ c ∈ cols, countQ c = 0) :
    countQL (cols.map MySQLDialect.QuoteIdentifier) = 0 := by
  induction cols with
  | nil => rfl
  | cons c cs ih =>
    simp only [List.map_cons, countQL, List.sum_cons] at ih ⊢
    rw [countQ_quote, hc c (by simp), ih (fun x hx => hc x (by simp [hx]))]

theorem greedyWsAux_drop (rest : List Char) (k : Nat) (g3 : List Char)
    (h : greedyWsAux rest k = some g3) : ∃ n, g3 = rest.drop n := by
  induction k with
  | zero => simp [greedyWsAux] at h
  | succ m ih =>
    unfold greedyWsAux at h
    split at h
    · exact ⟨m + 1, (Option.some.inj h).symm⟩
    · exact ih h

theorem tailAfterWs_drop (rem g3 : List Char) (h : tailAfterWs rem = some g3) :
    ∃ n, g3 = rem.drop n := by
  unfold tailAfterWs at h
  by_cases ha : isAs rem = true
  · rw [if_pos ha] at h
    cases hg : greedyWsSplit (rem.drop 2) with
    | some g =>
      rw [hg] at h
      obtain ⟨n, hn⟩ := greedyWsAux_drop _ _ _ hg
      exact ⟨2 + n, by rw [← Option.some.inj h, hn, List.drop_drop]⟩
    | none =>
      rw [hg] at h
      by_cases hne : rem ≠ [] ∧ noNewline rem = true
      · rw [if_pos hne] at h
        exact ⟨0, by rw [List.drop_zero]; exact (Option.some.inj h).symm⟩
      · rw [if_neg hne] at h
        exact absurd h (by simp)
  · rw [if_neg ha] at h
    by_cases hne : rem ≠ [] ∧ noNewline rem = true
    · rw [if_pos hne] at h
      exact ⟨0, by rw [List.drop_zero]; exact (Option.some.inj h).symm⟩
    · rw [if_neg hne] at h
      exact absurd h (by simp)

theorem matchAfterAux_drop (rest : List Char) (k : Nat) (g3 : List Char)
    (h : matchAfterAux rest k = some g3) : ∃ n, g3 = rest.drop n := by
  induction k with
  | zero => simp [matchAfterAux] at h
  | succ m ih =>
    unfold matchAfterAux at h
    split at h
    · rename_i g hg
      obtain ⟨n, hn⟩ := tailAfterWs_drop _ _ hg
      exact ⟨m + 1 + n, by rw [← Option.some.inj h, hn, List.drop_drop]⟩
    · exact ih h

theorem splitAlias_counts (cs : List Char) (acc g1 g3 : List Char)
    (h : splitAlias cs acc = some (g1, g3)) :
    g1.count '?' ≤ acc.count '?' + cs.count '?' ∧ g3.count '?' ≤ cs.count '?' := by
  induction cs generalizing acc with
  | nil => simp [splitAlias] at h
  | cons c rest ih =>
    unfold splitAlias at h
    by_cases hc : (c == '\n') = true
    · rw [if_pos hc] at h
      exact absurd h (by simp)
    · rw [if_neg hc] at h
      cases hm : matchAfterTable rest with
      | some g =>
        rw [hm] at h
        injection h with hh
        injection hh with e1 e2
        subst e1
        subst e2
        obtain ⟨n, hn⟩ := matchAfterAux_drop rest (wsRun rest) g hm
        constructor
        · simp only [List.count_reverse, List.count_cons]
          omega
        · rw [hn]
          have h4 : (rest.drop n).count '?' ≤ rest.count '?' :=
            (List.drop_sublist n rest).count_le '?'
          simp only [List.count_cons]
          omega
      | none =>
        rw [hm] at h
        obtain ⟨h1, h2⟩ := ih (c :: acc) h
        simp only [List.count_cons] at h1 ⊢
        constructor
        · omega
        · omega

theorem count_goTrimSpace_le (s : String) :
    (goTrimSpace s).data.count '?' ≤ s.data.count '?' := by
  unfold goTrimSpace
  show (((s.data.dropWhile goIsSpaceTrim).reverse.dropWhile goIsSpaceTrim).reverse).count '?' ≤ _
  rw [List.count_reverse]
  calc ((s.data.dropWhile goIsSpaceTrim).reverse.dropWhile goIsSpaceTrim).count '?'
      ≤ (s.data.dropWhile goIsSpaceTrim).reverse.count '?' :=
        (List.dropWhile_sublist _).count_le '?'
    _ = (s.data.dropWhile goIsSpaceTrim).count '?' := List.count_reverse ..
    _ ≤ s.data.count '?' := (List.dropWhile_sublist _).count_le '?'

theorem countQ_qtna (t : String) (h : countQ t = 0) :
    countQ (quoteTableNameWithAlias t) = 0 := by
  unfold quoteTableNameWithAlias
  cases hs : splitAlias t.data [] with
  | none => rw [countQ_quote]; exact h
  | some p =>
    obtain ⟨g1, g3⟩ := p
    obtain ⟨hg1, hg3⟩ := splitAlias_counts _ _ _ _ hs
    simp only [countQ] at h
    rw [h] at hg1 hg3
    simp only [List.count_nil, Nat.zero_add, Nat.le_zero] at hg1 hg3
    rw [countQ_append, countQ_append, countQ_quote]
    have e1 : countQ (goTrimSpace (String.mk g1)) = 0 := by
      have h5 := count_goTrimSpace_le (String.mk g1)
      rw [show (String.mk g1).data = g1 from rfl] at h5
      simp only [countQ]
      omega
    have e3 : countQ (goTrimSpace (String.mk g3)) = 0 := by
      have h5 := count_goTrimSpace_le (String.mk g3)
      rw [show (String.mk g3).data = g3 from rfl] at h5
      simp only [countQ]
      omega
    rw [e1, e3, show countQ " as " = 0 from by decide]

/-- C1 counterexample: the claim as stated fails — an operator string
containing `?` makes the rendered SQL carry more `?` characters than the
argument list has entries, already for a single Where call. -/
theorem placeholder_alignment_counterexample :
    countQ (((applyWhereOps ((NewSelectBuilder []).From "t")
        [WhereOp.Where "a" "= 1 OR b = ?" (Arg.i 0)]).buildSQL).1) ≠
      ((((applyWhereOps ((NewSelectBuilder []).From "t")
        [WhereOp.Where "a" "= 1 OR b = ?" (Arg.i 0)]).buildSQL).2)).length := by
  decide

/-- C1 (amended): for every sequence of simple predicate-building calls
whose column and operator strings contain no `?`, the SQL rendered from a
fresh builder has exactly as many `?` placeholders as the returned argument
list has entries; the argument list is the concatenation of the calls'
arguments in call order; and for every prefix of the call sequence the
placeholders contributed by those calls match their arguments in number, so
the i-th argument lands on the i-th placeholder, inside the fragment of the
call that added it. -/
theorem placeholder_alignment (cols : List String) (table : String) (ops : List WhereOp)
    (hc : ∀ c ∈ cols, countQ c = 0) (ht : countQ table = 0)
    (hops : ∀ op ∈ ops, opClean op) :
    countQ (((applyWhereOps ((NewSelectBuilder cols).From table) ops).buildSQL).1) =
      (((applyWhereOps ((NewSelectBuilder cols).From table) ops).buildSQL).2).length ∧
    ((applyWhereOps ((NewSelectBuilder cols).From table) ops).buildSQL).2 =
      (ops.map opArgs).flatten ∧
    (∀ k, countQL ((ops.take k).map opFrag) = (((ops.take k).map opArgs).flatten).length) := by
  have hsel : countQ (if cols = [] then "SELECT *"
      else "SELECT " ++ goJoin ", " (cols.map MySQLDialect.QuoteIdentifier)) = 0 := by
    split
    · decide
    · rw [countQ_append, countQ_goJoin _ (by decide), countQL_map_quote cols hc,
        show countQ "SELECT " = 0 from by decide]
  have hflen : countQL (ops.map opFrag) = ((ops.map opArgs).flatten).length :=
    countQL_opFrags ops hops
  have hbase : applyWhereOps ((NewSelectBuilder cols).From table) ops =
      { columns := cols, table := table, wheres := ops.map opFrag,
        whereArgs := (ops.map opArgs).flatten } := by
    rw [applyWhereOps_state]
    simp [NewSelectBuilder, selectBuilder.From]
  rw [hbase]
  have hjoin : ∀ l, countQ (goJoin " " l) = countQL l := fun l =>
    countQ_goJoin " " (by decide) l
  have hfrom : countQ ("FROM " ++ quoteTableNameWithAlias table) = 0 := by
    rw [countQ_append, countQ_qtna table ht, show countQ "FROM " = 0 from by decide]
  have hwhere : countQ ("WHERE " ++ whereClauseOf (ops.map opFrag)) =
      ((ops.map opArgs).flatten).length := by
    rw [countQ_append, countQ_whereClauseOf, hflen,
      show countQ "WHERE " = 0 from by decide]
    omega
  refine ⟨?_, ?_, ?_⟩
  · simp only [selectBuilder.buildSQL]
    by_cases h0 : ops = []
    · subst h0
      by_cases htb : table = ""
      · simp [htb, hjoin, countQL, hsel]
      · simp [htb, hjoin, countQL, hsel, hfrom]
    · have hmap : ops.map opFrag ≠ [] := by simpa using h0
      by_cases htb : table = ""
      · simp [htb, hmap, hjoin, countQL, hsel, hwhere]
      · simp [htb, hmap, hjoin, countQL, hsel, hfrom, hwhere]
  · simp only [selectBuilder.buildSQL]
    by_cases h0 : ops = []
    · subst h0
      simp
    · have hmap : ops.map opFrag ≠ [] := by simpa using h0
      simp [hmap]
  · intro k
    exact countQL_opFrags (ops.take k) (fun op hop => hops op (List.mem_of_mem_take hop))

/-- Witness for the amended C1 at a concrete call sequence covering the
main call shapes. -/
theorem placeholder_alignment_witness :
    countQ (((applyWhereOps ((NewSelectBuilder []).From "users")
        [WhereOp.Where "age" ">" (Arg.i 18), WhereOp.OrWhere "name" "=" (Arg.s "jo"),
         WhereOp.WhereIn "id" [Arg.i 1, Arg.i 2, Arg.i 3], WhereOp.WhereNull "bio",
         WhereOp.WhereBetween "score" (Arg.i 1) (Arg.i 9)]).buildSQL).1) =
      (((applyWhereOps ((NewSelectBuilder []).From "users")
        [WhereOp.Where "age" ">" (Arg.i 18), WhereOp.OrWhere "name" "=" (Arg.s "jo"),
         WhereOp.WhereIn "id" [Arg.i 1, Arg.i 2, Arg.i 3], WhereOp.WhereNull "bio",
         WhereOp.WhereBetween "score" (Arg.i 1) (Arg.i 9)]).buildSQL).2).length :=
  (placeholder_alignment [] "users"
    [WhereOp.Where "age" ">" (Arg.i 18), WhereOp.OrWhere "name" "=" (Arg.s "jo"),
     WhereOp.WhereIn "id" [Arg.i 1, Arg.i 2, Arg.i 3], WhereOp.WhereNull "bio",
     WhereOp.WhereBetween "score" (Arg.i 1) (Arg.i 9)]
    (by simp) (by decide) (by decide)).1

/-!
Claim C6: Paginate computes offset, total, lastPage and the display bounds
as specified, counting on a clone taken before the page limit/offset are
applied.
-/

/-- C6: Paginate's total is the whole base result set's size (obtained via
Count() on a Clone() that, like the builder, carries no limit/offset);
lastPage is the ceiling of total/perPage (the Go truncated division agrees
with Euclidean division here and satisfies the ceiling bounds); From/To are
`offset+1` and `offset + page-row-count` for a positive total and both zero
otherwise; and the page rows are the offset/limit slice of the base result
set. -/
theorem paginate_spec (table : List Row) (s : selectBuilder) (page perPage : Int)
    (h1 : s.limit = none) (h2 : s.offset = none) (hp : 1 ≤ page) (hpp : 0 < perPage) :
    ((s.Paginate table page perPage).1).total = (table.length : Int) ∧
    (s.Clone).limit = none ∧ (s.Clone).offset = none ∧
    ((s.Paginate table page perPage).2).limit = some perPage ∧
    ((s.Paginate table page perPage).2).offset = some ((page - 1) * perPage) ∧
    ((s.Paginate table page perPage).1).lastPage =
      ((table.length : Int) + perPage - 1) / perPage ∧
    (table.length : Int) ≤ perPage * ((s.Paginate table page perPage).1).lastPage ∧
    perPage * ((s.Paginate table page perPage).1).lastPage < (table.length : Int) + perPage ∧
    (0 < (table.length : Int) →
      ((s.Paginate table page perPage).1).fromN = (page - 1) * perPage + 1 ∧
      ((s.Paginate table page perPage).1).toN =
        (page - 1) * perPage + (((s.Paginate table page perPage).1).data.length : Int)) ∧
    ((table.length : Int) = 0 →
      ((s.Paginate table page perPage).1).fromN = 0 ∧
      ((s.Paginate table page perPage).1).toN = 0) ∧
    ((s.Paginate table page perPage).1).data =
      (table.drop ((page - 1) * perPage).toNat).take perPage.toNat := by
  have htdiv : Int.tdiv ((table.length : Int) + perPage - 1) perPage =
      ((table.length : Int) + perPage - 1) / perPage := by
    rw [Int.tdiv_eq_ediv] <;> omega
  have hmod := Int.ediv_add_emod ((table.length : Int) + perPage - 1) perPage
  have hmn := Int.emod_nonneg ((table.length : Int) + perPage - 1) (by omega : perPage ≠ 0)
  have hml := Int.emod_lt_of_pos ((table.length : Int) + perPage - 1) hpp
  refine ⟨rfl, by simp [selectBuilder.Clone, h1], by simp [selectBuilder.Clone, h2],
    rfl, rfl, ?_, ?_, ?_, ?_, ?_, ?_⟩
  · simp only [selectBuilder.Paginate, execCount]
    exact htdiv
  · simp only [selectBuilder.Paginate, execCount]
    rw [htdiv]
    omega
  · simp only [selectBuilder.Paginate, execCount]
    rw [htdiv]
    omega
  · intro hpos
    simp only [selectBuilder.Paginate, execCount]
    rw [if_pos hpos, if_pos hpos]
    exact ⟨rfl, rfl⟩
  · intro hzero
    simp only [selectBuilder.Paginate, execCount]
    rw [if_neg (by omega), if_neg (by omega)]
    exact ⟨rfl, rfl⟩
  · simp [selectBuilder.Paginate, execRows, execCount, selectBuilder.Limit,
      selectBuilder.Offset]

/-- Witness for C6: page 2, 10 per page, over a 50-row result set — Total
50, LastPage 5, From 11, To 20, exactly 10 rows. -/
theorem paginate_spec_witness :
    ((selectBuilder.Paginate ((List.range 50).map (fun n => [("id", Arg.i (n : Int))]))
        ((NewSelectBuilder []).From "users") 2 10).1).total = 50 ∧
    ((selectBuilder.Paginate ((List.range 50).map (fun n => [("id", Arg.i (n : Int))]))
        ((NewSelectBuilder []).From "users") 2 10).1).lastPage = 5 ∧
    ((selectBuilder.Paginate ((List.range 50).map (fun n => [("id", Arg.i (n : Int))]))
        ((NewSelectBuilder []).From "users") 2 10).1).fromN = 11 ∧
    ((selectBuilder.Paginate ((List.range 50).map (fun n => [("id", Arg.i (n : Int))]))
        ((NewSelectBuilder []).From "users") 2 10).1).toN = 20 ∧
    ((selectBuilder.Paginate ((List.range 50).map (fun n => [("id", Arg.i (n : Int))]))
        ((NewSelectBuilder []).From "users") 2 10).1).data.length = 10 := by
  have H := paginate_spec ((List.range 50).map (fun n => [("id", Arg.i (n : Int))]))
    ((NewSelectBuilder []).From "users") 2 10 rfl rfl (by decide) (by decide)
  refine ⟨by rw [H.1]; decide, by decide, by decide, by decide, by decide⟩

/-!
Claim C9: KeysetPaginate silently normalises an invalid direction to asc.
-/

/-- C9: a direction that is neither `asc` nor `desc` behaves exactly like
`asc`: the whole call result coincides with the `asc` call, and in
particular a non-nil last value adds the `column > ?` predicate with the
last value as its argument, and the ordering is ascending on the column. -/
theorem keyset_invalid_direction (table : List Row) (s : selectBuilder) (column : String)
    (lastValue : Option Arg) (perPage : Int) (direction : String)
    (hd1 : direction ≠ "asc") (hd2 : direction ≠ "desc") :
    s.KeysetPaginate table column lastValue perPage direction =
      s.KeysetPaginate table column lastValue perPage "asc" ∧
    (∀ v, lastValue = some v →
      ((s.KeysetPaginate table column lastValue perPage direction).2).wheres =
        s.wheres ++ [MySQLDialect.QuoteIdentifier column ++ " > ?"] ∧
      ((s.KeysetPaginate table column lastValue perPage direction).2).whereArgs =
        s.whereArgs ++ [v]) ∧
    ((s.KeysetPaginate table column lastValue perPage direction).2).orders =
      (match lastValue with
        | some _ => s.orders
        | none => s.orders) ++ [MySQLDialect.SelectOrderBy column false] := by
  have hnorm : (if direction ≠ "asc" ∧ direction ≠ "desc" then "asc" else direction) =
      "asc" := if_pos ⟨hd1, hd2⟩
  have hfrag : ∀ q : String,
      q ++ " " ++ ">" ++ " " ++ MySQLDialect.PlaceholderFormat = q ++ " > ?" := by
    intro q
    cases q
    simp [MySQLDialect.PlaceholderFormat, String.append_assoc]
  refine ⟨?_, ?_, ?_⟩
  · simp [selectBuilder.KeysetPaginate, hnorm]
  · intro v hv
    subst hv
    simp [selectBuilder.KeysetPaginate, hnorm, selectBuilder.Where, selectBuilder.OrderBy,
      selectBuilder.Limit, hfrag]
  · cases lastValue with
    | none =>
      simp [selectBuilder.KeysetPaginate, hnorm, selectBuilder.OrderBy, selectBuilder.Limit]
    | some v =>
      simp [selectBuilder.KeysetPaginate, hnorm, selectBuilder.Where, selectBuilder.OrderBy,
        selectBuilder.Limit]

/-- Witness for C9 at a concrete invalid direction. -/
theorem keyset_invalid_direction_witness :
    (((NewSelectBuilder []).From "users").KeysetPaginate
        [[("id", Arg.i 1)], [("id", Arg.i 2)]] "id" (some (Arg.i 5)) 1 "sideways" =
      ((NewSelectBuilder []).From "users").KeysetPaginate
        [[("id", Arg.i 1)], [("id", Arg.i 2)]] "id" (some (Arg.i 5)) 1 "asc") ∧
    ((((NewSelectBuilder []).From "users").KeysetPaginate
        [[("id", Arg.i 1)], [("id", Arg.i 2)]] "id" (some (Arg.i 5)) 1 "sideways").2).wheres =
      [MySQLDialect.QuoteIdentifier "id" ++ " > ?"] := by
  have H := keyset_invalid_direction [[("id", Arg.i 1)], [("id", Arg.i 2)]]
    ((NewSelectBuilder []).From "users") "id" (some (Arg.i 5)) 1 "sideways"
    (by decide) (by decide)
  exact ⟨H.1, by rw [(H.2.1 (Arg.i 5) rfl).1]; decide⟩

/-!
Claim C8: clone independence, at the heap level. Mutations through one
builder never change what the other builder's slices denote, because
Clone() allocates fresh backing arrays and Go's append never writes into an
array it had to abandon.
-/

theorem Heap.read_write_ne (h : Heap α) (i j : Nat) (a : List α) (hij : i ≠ j) :
    (h.write i a).read j = h.read j := by
  simp [Heap.read, Heap.write, List.getD, List.getElem?_set_ne hij]

theorem Heap.read_alloc_lt (h : Heap α) (a : List α) (j : Nat)
    (hj : j < h.arrays.length) : ((h.alloc a).1).read j = h.read j := by
  simp only [Heap.read, Heap.alloc]
  exact List.getD_append _ _ _ _ hj

theorem Heap.len_write (h : Heap α) (i : Nat) (a : List α) :
    (h.write i a).arrays.length = h.arrays.length := by
  simp [Heap.write]

theorem Heap.len_alloc (h : Heap α) (a : List α) :
    ((h.alloc a).1).arrays.length = h.arrays.length + 1 := by
  simp [Heap.alloc]

theorem sliceAppend_read_ne (h : Heap α) (s : GoSlice) (x : α) (j : Nat)
    (hj : j < h.arrays.length) (hne : j ≠ s.id) :
    ((sliceAppend h s x).1).read j = h.read j := by
  unfold sliceAppend
  split
  · exact Heap.read_write_ne h s.id j _ (Ne.symm hne)
  · exact Heap.read_alloc_lt h _ j hj

theorem sliceAppend_len_le (h : Heap α) (s : GoSlice) (x : α) :
    h.arrays.length ≤ ((sliceAppend h s x).1).arrays.length := by
  unfold sliceAppend
  split
  · rw [Heap.len_write]
  · rw [Heap.len_alloc]
    omega

theorem sliceAppend_id_cases (h : Heap α) (s : GoSlice) (x : α) :
    ((sliceAppend h s x).2).id = s.id ∨ h.arrays.length ≤ ((sliceAppend h s x).2).id := by
  unfold sliceAppend
  split
  · exact Or.inl rfl
  · exact Or.inr (by simp [Heap.alloc])

theorem sliceAppendMany_read_ne (xs : List α) (h : Heap α) (s : GoSlice) (j : Nat)
    (hj : j < h.arrays.length) (hne : j ≠ s.id) :
    ((sliceAppendMany h s xs).1).read j = h.read j := by
  induction xs generalizing h s with
  | nil => rfl
  | cons x rest ih =>
    show ((sliceAppendMany (sliceAppend h s x).1 (sliceAppend h s x).2 rest).1).read j = _
    have hj' : j < ((sliceAppend h s x).1).arrays.length :=
      Nat.lt_of_lt_of_le hj (sliceAppend_len_le h s x)
    have hne' : j ≠ ((sliceAppend h s x).2).id := by
      rcases sliceAppend_id_cases h s x with hcase | hcase
      · rw [hcase]; exact hne
      · omega
    rw [ih (sliceAppend h s x).1 (sliceAppend h s x).2 hj' hne',
      sliceAppend_read_ne h s x j hj hne]

theorem sliceAppendMany_len_le (xs : List α) (h : Heap α) (s : GoSlice) :
    h.arrays.length ≤ ((sliceAppendMany h s xs).1).arrays.length := by
  induction xs generalizing h s with
  | nil => exact Nat.le_refl _
  | cons x rest ih =>
    show h.arrays.length ≤
      ((sliceAppendMany (sliceAppend h s x).1 (sliceAppend h s x).2 rest).1).arrays.length
    exact Nat.le_trans (sliceAppend_len_le h s x) (ih _ _)

theorem sliceAppendMany_id_cases (xs : List α) (h : Heap α) (s : GoSlice) :
    ((sliceAppendMany h s xs).2).id = s.id ∨
      h.arrays.length ≤ ((sliceAppendMany h s xs).2).id := by
  induction xs generalizing h s with
  | nil => exact Or.inl rfl
  | cons x rest ih =>
    have heq : sliceAppendMany h s (x :: rest) =
        sliceAppendMany (sliceAppend h s x).1 (sliceAppend h s x).2 rest := rfl
    rw [heq]
    rcases ih (sliceAppend h s x).1 (sliceAppend h s x).2 with hcase | hcase
    · rcases sliceAppend_id_cases h s x with h2 | h2
      · exact Or.inl (hcase.trans h2)
      · exact Or.inr (by rw [hcase]; exact h2)
    · exact Or.inr (Nat.le_trans (sliceAppend_len_le h s x) hcase)

theorem allocSlice_read_lt (h : Heap α) (a : List α) (j : Nat)
    (hj : j < h.arrays.length) : ((allocSlice h a).1).read j = h.read j :=
  Heap.read_alloc_lt h a j hj

theorem allocSlice_len (h : Heap α) (a : List α) :
    ((allocSlice h a).1).arrays.length = h.arrays.length + 1 :=
  Heap.len_alloc h a

theorem allocSlice_id (h : Heap α) (a : List α) :
    ((allocSlice h a).2).id = h.arrays.length := rfl

theorem readSlice_of_read_eq {h h' : Heap α} {f : GoSlice}
    (hr : h'.read f.id = h.read f.id) : readSlice h' f = readSlice h f := by
  unfold readSlice
  rw [hr]

theorem readout_congr (w w' : World) (t : hSelectBuilder)
    (hs : ∀ j ∈ strIds t, w'.strH.read j = w.strH.read j)
    (ha : ∀ j ∈ argIds t, w'.argH.read j = w.argH.read j) :
    readout w' t = readout w t := by
  unfold readout
  rw [readSlice_of_read_eq (hs t.columns.id (by simp [strIds])),
    readSlice_of_read_eq (hs t.joins.id (by simp [strIds])),
    readSlice_of_read_eq (hs t.wheres.id (by simp [strIds])),
    readSlice_of_read_eq (hs t.orders.id (by simp [strIds])),
    readSlice_of_read_eq (hs t.groups.id (by simp [strIds])),
    readSlice_of_read_eq (hs t.havings.id (by simp [strIds])),
    readSlice_of_read_eq (ha t.whereArgs.id (by simp [argIds])),
    readSlice_of_read_eq (ha t.havingArgs.id (by simp [argIds]))]

/-- Generic frame fact: appending through slices of the acting builder `b`
(one string slice `X`, one argument slice `Y`) neither changes what any
slice of an observer `t` with disjoint, allocated ids denotes, nor makes
the successor builder `b'` overlap `t`. -/
theorem hop_frame_generic (w : World) (b b' t : hSelectBuilder)
    (X Y : GoSlice) (hX : X.id ∈ strIds b) (hY : Y.id ∈ argIds b)
    (fs : List String) (vs : List Arg)
    (hsub_str : ∀ i ∈ strIds b', i ∈ strIds b ∨ i = ((sliceAppendMany w.strH X fs).2).id)
    (hsub_arg : ∀ i ∈ argIds b', i ∈ argIds b ∨ i = ((sliceAppendMany w.argH Y vs).2).id)
    (hstr : ∀ j ∈ strIds t, j < w.strH.arrays.length ∧ j ∉ strIds b)
    (harg : ∀ j ∈ argIds t, j < w.argH.arrays.length ∧ j ∉ argIds b) :
    readout ⟨(sliceAppendMany w.strH X fs).1, (sliceAppendMany w.argH Y vs).1⟩ t =
      readout w t ∧
    (∀ j ∈ strIds t, j < ((sliceAppendMany w.strH X fs).1).arrays.length ∧
      j ∉ strIds b') ∧
    (∀ j ∈ argIds t, j < ((sliceAppendMany w.argH Y vs).1).arrays.length ∧
      j ∉ argIds b') := by
  refine ⟨readout_congr _ _ _ ?_ ?_, ?_, ?_⟩
  · intro j hj
    obtain ⟨hlt, hnin⟩ := hstr j hj
    exact sliceAppendMany_read_ne fs w.strH X j hlt (fun he => hnin (he ▸ hX))
  · intro j hj
    obtain ⟨hlt, hnin⟩ := harg j hj
    exact sliceAppendMany_read_ne vs w.argH Y j hlt (fun he => hnin (he ▸ hY))
  · intro j hj
    obtain ⟨hlt, hnin⟩ := hstr j hj
    refine ⟨Nat.lt_of_lt_of_le hlt (sliceAppendMany_len_le fs w.strH X), ?_⟩
    intro hmem
    rcases hsub_str j hmem with hold | hnew
    · exact hnin hold
    · rcases sliceAppendMany_id_cases fs w.strH X with hc | hc
      · exact hnin (by rw [hnew, hc]; exact hX)
      · omega
  · intro j hj
    obtain ⟨hlt, hnin⟩ := harg j hj
    refine ⟨Nat.lt_of_lt_of_le hlt (sliceAppendMany_len_le vs w.argH Y), ?_⟩
    intro hmem
    rcases hsub_arg j hmem with hold | hnew
    · exact hnin hold
    · rcases sliceAppendMany_id_cases vs w.argH Y with hc | hc
      · exact hnin (by rw [hnew, hc]; exact hY)
      · omega

/-- Core frame fact, stated for arbitrary successor heaps satisfying the
append/alloc properties: the observer `t` keeps denoting the same values
and stays disjoint from the successor builder. -/
theorem hop_frame_core (w : World) (b b' t : hSelectBuilder)
    (H1 : Heap String) (H2 : Heap Arg)
    (hread1 : ∀ j, j < w.strH.arrays.length → j ∉ strIds b → H1.read j = w.strH.read j)
    (hlen1 : w.strH.arrays.length ≤ H1.arrays.length)
    (hread2 : ∀ j, j < w.argH.arrays.length → j ∉ argIds b → H2.read j = w.argH.read j)
    (hlen2 : w.argH.arrays.length ≤ H2.arrays.length)
    (hsub_str : ∀ i ∈ strIds b', i ∈ strIds b ∨ w.strH.arrays.length ≤ i)
    (hsub_arg : ∀ i ∈ argIds b', i ∈ argIds b ∨ w.argH.arrays.length ≤ i)
    (hstr : ∀ j ∈ strIds t, j < w.strH.arrays.length ∧ j ∉ strIds b)
    (harg : ∀ j ∈ argIds t, j < w.argH.arrays.length ∧ j ∉ argIds b) :
    readout ⟨H1, H2⟩ t = readout w t ∧
    (∀ j ∈ strIds t, j < H1.arrays.length ∧ j ∉ strIds b') ∧
    (∀ j ∈ argIds t, j < H2.arrays.length ∧ j ∉ argIds b') := by
  refine ⟨readout_congr _ _ _ ?_ ?_, ?_, ?_⟩
  · intro j hj
    obtain ⟨hlt, hnin⟩ := hstr j hj
    exact hread1 j hlt hnin
  · intro j hj
    obtain ⟨hlt, hnin⟩ := harg j hj
    exact hread2 j hlt hnin
  · intro j hj
    obtain ⟨hlt, hnin⟩ := hstr j hj
    refine ⟨Nat.lt_of_lt_of_le hlt hlen1, ?_⟩
    intro hmem
    rcases hsub_str j hmem with hold | hnew
    · exact hnin hold
    · omega
  · intro j hj
    obtain ⟨hlt, hnin⟩ := harg j hj
    refine ⟨Nat.lt_of_lt_of_le hlt hlen2, ?_⟩
    intro hmem
    rcases hsub_arg j hmem with hold | hnew
    · exact hnin hold
    · omega

/-- Frame property of every public mutating call: acting on builder `b`
leaves every observer builder `t` (allocated, disjoint from `b`) denoting
the same values, and preserves allocation and disjointness. -/
theorem applyHOp_frame (op : HOp) (w : World) (b t : hSelectBuilder)
    (hstr : ∀ j ∈ strIds t, j < w.strH.arrays.length ∧ j ∉ strIds b)
    (harg : ∀ j ∈ argIds t, j < w.argH.arrays.length ∧ j ∉ argIds b) :
    readout (applyHOp (w, b) op).1 t = readout w t ∧
    (∀ j ∈ strIds t, j < (applyHOp (w, b) op).1.strH.arrays.length ∧
      j ∉ strIds (applyHOp (w, b) op).2) ∧
    (∀ j ∈ argIds t, j < (applyHOp (w, b) op).1.argH.arrays.length ∧
      j ∉ argIds (applyHOp (w, b) op).2) := by
  cases op with
  | hWhere c o v =>
    simp only [applyHOp, hWhere]
    refine hop_frame_core w b _ t _ _ ?_ ?_ ?_ ?_ ?_ ?_ hstr harg
    · intro j hj hn
      exact sliceAppend_read_ne _ _ _ j hj (fun he => hn (by rw [he]; simp [strIds]))
    · exact sliceAppend_len_le _ _ _
    · intro j hj hn
      exact sliceAppend_read_ne _ _ _ j hj (fun he => hn (by rw [he]; simp [argIds]))
    · exact sliceAppend_len_le _ _ _
    · intro i hi
      simp only [strIds, List.mem_cons, List.not_mem_nil, or_false] at hi ⊢
      rcases hi with rfl | rfl | rfl | rfl | rfl | rfl
      · exact Or.inl (by tauto)
      · exact Or.inl (by tauto)
      · rcases sliceAppend_id_cases w.strH b.wheres _ with h | h
        · exact Or.inl (by rw [h]; tauto)
        · exact Or.inr h
      · exact Or.inl (by tauto)
      · exact Or.inl (by tauto)
      · exact Or.inl (by tauto)
    · intro i hi
      simp only [argIds, List.mem_cons, List.not_mem_nil, or_false] at hi ⊢
      rcases hi with rfl | rfl
      · rcases sliceAppend_id_cases w.argH b.whereArgs _ with h | h
        · exact Or.inl (by rw [h]; tauto)
        · exact Or.inr h
      · exact Or.inl (by tauto)
  | hOrWhere c o v =>
    simp only [applyHOp, hOrWhere]
    refine hop_frame_core w b _ t _ _ ?_ ?_ ?_ ?_ ?_ ?_ hstr harg
    · intro j hj hn
      exact sliceAppend_read_ne _ _ _ j hj (fun he => hn (by rw [he]; simp [strIds]))
    · exact sliceAppend_len_le _ _ _
    · intro j hj hn
      exact sliceAppend_read_ne _ _ _ j hj (fun he => hn (by rw [he]; simp [argIds]))
    · exact sliceAppend_len_le _ _ _
    · intro i hi
      simp only [strIds, List.mem_cons, List.not_mem_nil, or_false] at hi ⊢
      rcases hi with rfl | rfl | rfl | rfl | rfl | rfl
      · exact Or.inl (by tauto)
      · exact Or.inl (by tauto)
      · rcases sliceAppend_id_cases w.strH b.wheres _ with h | h
        · exact Or.inl (by rw [h]; tauto)
        · exact Or.inr h
      · exact Or.inl (by tauto)
      · exact Or.inl (by tauto)
      · exact Or.inl (by tauto)
    · intro i hi
      simp only [argIds, List.mem_cons, List.not_mem_nil, or_false] at hi ⊢
      rcases hi with rfl | rfl
      · rcases sliceAppend_id_cases w.argH b.whereArgs _ with h | h
        · exact Or.inl (by rw [h]; tauto)
        · exact Or.inr h
      · exact Or.inl (by tauto)
  | hWhereIn c vs =>
    simp only [applyHOp, hWhereIn]
    refine hop_frame_core w b _ t _ _ ?_ ?_ ?_ ?_ ?_ ?_ hstr harg
    · intro j hj hn
      exact sliceAppend_read_ne _ _ _ j hj (fun he => hn (by rw [he]; simp [strIds]))
    · exact sliceAppend_len_le _ _ _
    · intro j hj hn
      exact sliceAppendMany_read_ne _ _ _ j hj (fun he => hn (by rw [he]; simp [argIds]))
    · exact sliceAppendMany_len_le _ _ _
    · intro i hi
      simp only [strIds, List.mem_cons, List.not_mem_nil, or_false] at hi ⊢
      rcases hi with rfl | rfl | rfl | rfl | rfl | rfl
      · exact Or.inl (by tauto)
      · exact Or.inl (by tauto)
      · rcases sliceAppend_id_cases w.strH b.wheres _ with h | h
        · exact Or.inl (by rw [h]; tauto)
        · exact Or.inr h
      · exact Or.inl (by tauto)
      · exact Or.inl (by tauto)
      · exact Or.inl (by tauto)
    · intro i hi
      simp only [argIds, List.mem_cons, List.not_mem_nil, or_false] at hi ⊢
      rcases hi with rfl | rfl
      · rcases sliceAppendMany_id_cases vs w.argH b.whereArgs with h | h
        · exact Or.inl (by rw [h]; tauto)
        · exact Or.inr h
      · exact Or.inl (by tauto)
  | hWhereNull c =>
    simp only [applyHOp, hWhereNull]
    refine hop_frame_core w b _ t _ _ ?_ ?_ ?_ ?_ ?_ ?_ hstr harg
    · intro j hj hn
      exact sliceAppend_read_ne _ _ _ j hj (fun he => hn (by rw [he]; simp [strIds]))
    · exact sliceAppend_len_le _ _ _
    · intro j hj hn
      rfl
    · exact Nat.le_refl _
    · intro i hi
      simp only [strIds, List.mem_cons, List.not_mem_nil, or_false] at hi ⊢
      rcases hi with rfl | rfl | rfl | rfl | rfl | rfl
      · exact Or.inl (by tauto)
      · exact Or.inl (by tauto)
      · rcases sliceAppend_id_cases w.strH b.wheres _ with h | h
        · exact Or.inl (by rw [h]; tauto)
        · exact Or.inr h
      · exact Or.inl (by tauto)
      · exact Or.inl (by tauto)
      · exact Or.inl (by tauto)
    · intro i hi
      exact Or.inl hi
  | hWhereRaw cond args =>
    simp only [applyHOp, hWhereRaw]
    refine hop_frame_core w b _ t _ _ ?_ ?_ ?_ ?_ ?_ ?_ hstr harg
    · intro j hj hn
      exact sliceAppend_read_ne _ _ _ j hj (fun he => hn (by rw [he]; simp [strIds]))
    · exact sliceAppend_len_le _ _ _
    · intro j hj hn
      exact sliceAppendMany_read_ne _ _ _ j hj (fun he => hn (by rw [he]; simp [argIds]))
    · exact sliceAppendMany_len_le _ _ _
    · intro i hi
      simp only [strIds, List.mem_cons, List.not_mem_nil, or_false] at hi ⊢
      rcases hi with rfl | rfl | rfl | rfl | rfl | rfl
      · exact Or.inl (by tauto)
      · exact Or.inl (by tauto)
      · rcases sliceAppend_id_cases w.strH b.wheres _ with h | h
        · exact Or.inl (by rw [h]; tauto)
        · exact Or.inr h
      · exact Or.inl (by tauto)
      · exact Or.inl (by tauto)
      · exact Or.inl (by tauto)
    · intro i hi
      simp only [argIds, List.mem_cons, List.not_mem_nil, or_false] at hi ⊢
      rcases hi with rfl | rfl
      · rcases sliceAppendMany_id_cases args w.argH b.whereArgs with h | h
        · exact Or.inl (by rw [h]; tauto)
        · exact Or.inr h
      · exact Or.inl (by tauto)
  | hFrom tb =>
    refine ⟨rfl, ?_, ?_⟩
    · intro j hj
      exact hstr j hj
    · intro j hj
      exact harg j hj
  | hInnerJoin tb cond =>
    simp only [applyHOp, hInnerJoin]
    refine hop_frame_core w b _ t _ _ ?_ ?_ ?_ ?_ ?_ ?_ hstr harg
    · intro j hj hn
      exact sliceAppend_read_ne _ _ _ j hj (fun he => hn (by rw [he]; simp [strIds]))
    · exact sliceAppend_len_le _ _ _
    · intro j hj hn
      rfl
    · exact Nat.le_refl _
    · intro i hi
      simp only [strIds, List.mem_cons, List.not_mem_nil, or_false] at hi ⊢
      rcases hi with rfl | rfl | rfl | rfl | rfl | rfl
      · exact Or.inl (by tauto)
      · rcases sliceAppend_id_cases w.strH b.joins _ with h | h
        · exact Or.inl (by rw [h]; tauto)
        · exact Or.inr h
      · exact Or.inl (by tauto)
      · exact Or.inl (by tauto)
      · exact Or.inl (by tauto)
      · exact Or.inl (by tauto)
    · intro i hi
      exact Or.inl hi
  | hLeftJoin tb cond =>
    simp only [applyHOp, hLeftJoin]
    refine hop_frame_core w b _ t _ _ ?_ ?_ ?_ ?_ ?_ ?_ hstr harg
    · intro j hj hn
      exact sliceAppend_read_ne _ _ _ j hj (fun he => hn (by rw [he]; simp [strIds]))
    · exact sliceAppend_len_le _ _ _
    · intro j hj hn
      rfl
    · exact Nat.le_refl _
    · intro i hi
      simp only [strIds, List.mem_cons, List.not_mem_nil, or_false] at hi ⊢
      rcases hi with rfl | rfl | rfl | rfl | rfl | rfl
      · exact Or.inl (by tauto)
      · rcases sliceAppend_id_cases w.strH b.joins _ with h | h
        · exact Or.inl (by rw [h]; tauto)
        · exact Or.inr h
      · exact Or.inl (by tauto)
      · exact Or.inl (by tauto)
      · exact Or.inl (by tauto)
      · exact Or.inl (by tauto)
    · intro i hi
      exact Or.inl hi
  | hOrderBy c =>
    simp only [applyHOp, hOrderBy]
    refine hop_frame_core w b _ t _ _ ?_ ?_ ?_ ?_ ?_ ?_ hstr harg
    · intro j hj hn
      exact sliceAppend_read_ne _ _ _ j hj (fun he => hn (by rw [he]; simp [strIds]))
    · exact sliceAppend_len_le _ _ _
    · intro j hj hn
      rfl
    · exact Nat.le_refl _
    · intro i hi
      simp only [strIds, List.mem_cons, List.not_mem_nil, or_false] at hi ⊢
      rcases hi with rfl | rfl | rfl | rfl | rfl | rfl
      · exact Or.inl (by tauto)
      · exact Or.inl (by tauto)
      · exact Or.inl (by tauto)
      · rcases sliceAppend_id_cases w.strH b.orders _ with h | h
        · exact Or.inl (by rw [h]; tauto)
        · exact Or.inr h
      · exact Or.inl (by tauto)
      · exact Or.inl (by tauto)
    · intro i hi
      exact Or.inl hi
  | hOrderByDesc c =>
    simp only [applyHOp, hOrderByDesc]
    refine hop_frame_core w b _ t _ _ ?_ ?_ ?_ ?_ ?_ ?_ hstr harg
    · intro j hj hn
      exact sliceAppend_read_ne _ _ _ j hj (fun he => hn (by rw [he]; simp [strIds]))
    · exact sliceAppend_len_le _ _ _
    · intro j hj hn
      rfl
    · exact Nat.le_refl _
    · intro i hi
      simp only [strIds, List.mem_cons, List.not_mem_nil, or_false] at hi ⊢
      rcases hi with rfl | rfl | rfl | rfl | rfl | rfl
      · exact Or.inl (by tauto)
      · exact Or.inl (by tauto)
      · exact Or.inl (by tauto)
      · rcases sliceAppend_id_cases w.strH b.orders _ with h | h
        · exact Or.inl (by rw [h]; tauto)
        · exact Or.inr h
      · exact Or.inl (by tauto)
      · exact Or.inl (by tauto)
    · intro i hi
      exact Or.inl hi
  | hGroupBy cs =>
    simp only [applyHOp, hGroupBy]
    refine hop_frame_core w b _ t _ _ ?_ ?_ ?_ ?_ ?_ ?_ hstr harg
    · intro j hj hn
      exact sliceAppendMany_read_ne _ _ _ j hj (fun he => hn (by rw [he]; simp [strIds]))
    · exact sliceAppendMany_len_le _ _ _
    · intro j hj hn
      rfl
    · exact Nat.le_refl _
    · intro i hi
      simp only [strIds, List.mem_cons, List.not_mem_nil, or_false] at hi ⊢
      rcases hi with rfl | rfl | rfl | rfl | rfl | rfl
      · exact Or.inl (by tauto)
      · exact Or.inl (by tauto)
      · exact Or.inl (by tauto)
      · exact Or.inl (by tauto)
      · rcases sliceAppendMany_id_cases (cs.map MySQLDialect.QuoteIdentifier) w.strH b.groups
          with h | h
        · exact Or.inl (by rw [h]; tauto)
        · exact Or.inr h
      · exact Or.inl (by tauto)
    · intro i hi
      exact Or.inl hi
  | hHaving cond args =>
    simp only [applyHOp, hHaving]
    refine hop_frame_core w b _ t _ _ ?_ ?_ ?_ ?_ ?_ ?_ hstr harg
    · intro j hj hn
      exact sliceAppend_read_ne _ _ _ j hj (fun he => hn (by rw [he]; simp [strIds]))
    · exact sliceAppend_len_le _ _ _
    · intro j hj hn
      exact sliceAppendMany_read_ne _ _ _ j hj (fun he => hn (by rw [he]; simp [argIds]))
    · exact sliceAppendMany_len_le _ _ _
    · intro i hi
      simp only [strIds, List.mem_cons, List.not_mem_nil, or_false] at hi ⊢
      rcases hi with rfl | rfl | rfl | rfl | rfl | rfl
      · exact Or.inl (by tauto)
      · exact Or.inl (by tauto)
      · exact Or.inl (by tauto)
      · exact Or.inl (by tauto)
      · exact Or.inl (by tauto)
      · rcases sliceAppend_id_cases w.strH b.havings _ with h | h
        · exact Or.inl (by rw [h]; tauto)
        · exact Or.inr h
    · intro i hi
      simp only [argIds, List.mem_cons, List.not_mem_nil, or_false] at hi ⊢
      rcases hi with rfl | rfl
      · exact Or.inl (by tauto)
      · rcases sliceAppendMany_id_cases args w.argH b.havingArgs with h | h
        · exact Or.inl (by rw [h]; tauto)
        · exact Or.inr h
  | hLimit n =>
    refine ⟨rfl, ?_, ?_⟩
    · intro j hj
      exact hstr j hj
    · intro j hj
      exact harg j hj
  | hOffset n =>
    refine ⟨rfl, ?_, ?_⟩
    · intro j hj
      exact hstr j hj
    · intro j hj
      exact harg j hj
  | hSetColumns cs =>
    simp only [applyHOp, hSetColumns]
    refine hop_frame_core w b _ t _ _ ?_ ?_ ?_ ?_ ?_ ?_ hstr harg
    · intro j hj hn
      exact allocSlice_read_lt _ _ j hj
    · rw [allocSlice_len]
      omega
    · intro j hj hn
      rfl
    · exact Nat.le_refl _
    · intro i hi
      simp only [strIds, List.mem_cons, List.not_mem_nil, or_false] at hi ⊢
      rcases hi with rfl | rfl | rfl | rfl | rfl | rfl
      · exact Or.inr (by rw [allocSlice_id])
      · exact Or.inl (by tauto)
      · exact Or.inl (by tauto)
      · exact Or.inl (by tauto)
      · exact Or.inl (by tauto)
      · exact Or.inl (by tauto)
    · intro i hi
      exact Or.inl hi

/-- Frame property of call sequences, by induction. -/
theorem applyHOps_frame (ops : List HOp) (w : World) (b t : hSelectBuilder)
    (hstr : ∀ j ∈ strIds t, j < w.strH.arrays.length ∧ j ∉ strIds b)
    (harg : ∀ j ∈ argIds t, j < w.argH.arrays.length ∧ j ∉ argIds b) :
    readout (applyHOps (w, b) ops).1 t = readout w t ∧
    (∀ j ∈ strIds t, j < (applyHOps (w, b) ops).1.strH.arrays.length ∧
      j ∉ strIds (applyHOps (w, b) ops).2) ∧
    (∀ j ∈ argIds t, j < (applyHOps (w, b) ops).1.argH.arrays.length ∧
      j ∉ argIds (applyHOps (w, b) ops).2) := by
  induction ops generalizing w b with
  | nil => exact ⟨rfl, hstr, harg⟩
  | cons op rest ih =>
    obtain ⟨h1, h2, h3⟩ := applyHOp_frame op w b t hstr harg
    obtain ⟨g1, g2, g3⟩ := ih (applyHOp (w, b) op).1 (applyHOp (w, b) op).2 h2 h3
    exact ⟨g1.trans h1, g2, g3⟩

theorem hClone_strH_arrays (w : World) (b : hSelectBuilder) :
    (hClone w b).1.strH.arrays = w.strH.arrays ++
      [readSlice w.strH b.columns, readSlice w.strH b.joins, readSlice w.strH b.wheres,
       readSlice w.strH b.orders, readSlice w.strH b.groups, readSlice w.strH b.havings] := by
  simp [hClone, allocSlice, Heap.alloc]

theorem hClone_argH_arrays (w : World) (b : hSelectBuilder) :
    (hClone w b).1.argH.arrays = w.argH.arrays ++
      [readSlice w.argH b.whereArgs, readSlice w.argH b.havingArgs] := by
  simp [hClone, allocSlice, Heap.alloc]

theorem hClone_len_str (w : World) (b : hSelectBuilder) :
    (hClone w b).1.strH.arrays.length = w.strH.arrays.length + 6 := by
  rw [hClone_strH_arrays]
  simp

theorem hClone_len_arg (w : World) (b : hSelectBuilder) :
    (hClone w b).1.argH.arrays.length = w.argH.arrays.length + 2 := by
  rw [hClone_argH_arrays]
  simp

theorem hClone_str_read (w : World) (b : hSelectBuilder) (j : Nat)
    (hj : j < w.strH.arrays.length) :
    (hClone w b).1.strH.read j = w.strH.read j := by
  simp only [Heap.read, hClone_strH_arrays]
  exact List.getD_append _ _ _ _ hj

theorem hClone_arg_read (w : World) (b : hSelectBuilder) (j : Nat)
    (hj : j < w.argH.arrays.length) :
    (hClone w b).1.argH.read j = w.argH.read j := by
  simp only [Heap.read, hClone_argH_arrays]
  exact List.getD_append _ _ _ _ hj

theorem hClone_fresh_str (w : World) (b : hSelectBuilder) :
    ∀ j ∈ strIds (hClone w b).2,
      w.strH.arrays.length ≤ j ∧ j < w.strH.arrays.length + 6 := by
  intro j hj
  simp [hClone, strIds, allocSlice, Heap.alloc, List.length_append] at hj
  rcases hj with rfl | rfl | rfl | rfl | rfl | rfl <;> omega

theorem hClone_fresh_arg (w : World) (b : hSelectBuilder) :
    ∀ j ∈ argIds (hClone w b).2,
      w.argH.arrays.length ≤ j ∧ j < w.argH.arrays.length + 2 := by
  intro j hj
  simp [hClone, argIds, allocSlice, Heap.alloc, List.length_append] at hj
  rcases hj with rfl | rfl <;> omega

/-- The clone's fresh backing arrays do not disturb what the original
denotes. -/
theorem hClone_readout_orig (w : World) (b : hSelectBuilder) (hwf : idsBelow w b) :
    readout (hClone w b).1 b = readout w b :=
  readout_congr _ _ _ (fun j hj => hClone_str_read w b j ((hwf.1 j hj)))
    (fun j hj => hClone_arg_read w b j ((hwf.2 j hj)))

/-- C8: clone independence. For a well-formed builder `b`, clone it as the
Go code does; then any sequence of public mutating calls applied to the
clone leaves the original's ToSQL — SQL string and argument list — exactly
as before the calls, and symmetrically any sequence of mutating calls on
the original leaves the clone's ToSQL unchanged. -/
theorem clone_independent (w : World) (b : hSelectBuilder) (hwf : idsBelow w b)
    (ops : List HOp) :
    hToSQL (applyHOps (hClone w b) ops).1 b = hToSQL w b ∧
    hToSQL (applyHOps ((hClone w b).1, b) ops).1 (hClone w b).2 =
      hToSQL (hClone w b).1 (hClone w b).2 := by
  obtain ⟨hwf1, hwf2⟩ := hwf
  constructor
  · have hstr : ∀ j ∈ strIds b, j < (hClone w b).1.strH.arrays.length ∧
        j ∉ strIds (hClone w b).2 := by
      intro j hj
      have h2 := hwf1 j hj
      refine ⟨by rw [hClone_len_str]; omega, fun hmem => ?_⟩
      have h1 := hClone_fresh_str w b j hmem
      omega
    have harg : ∀ j ∈ argIds b, j < (hClone w b).1.argH.arrays.length ∧
        j ∉ argIds (hClone w b).2 := by
      intro j hj
      have h2 := hwf2 j hj
      refine ⟨by rw [hClone_len_arg]; omega, fun hmem => ?_⟩
      have h1 := hClone_fresh_arg w b j hmem
      omega
    have hframe := applyHOps_frame ops (hClone w b).1 (hClone w b).2 b hstr harg
    unfold hToSQL
    rw [hframe.1, hClone_readout_orig w b ⟨hwf1, hwf2⟩]
  · have hstr : ∀ j ∈ strIds (hClone w b).2,
        j < (hClone w b).1.strH.arrays.length ∧ j ∉ strIds b := by
      intro j hj
      have h1 := hClone_fresh_str w b j hj
      refine ⟨by rw [hClone_len_str]; omega, fun hmem => ?_⟩
      have h2 := hwf1 j hmem
      omega
    have harg : ∀ j ∈ argIds (hClone w b).2,
        j < (hClone w b).1.argH.arrays.length ∧ j ∉ argIds b := by
      intro j hj
      have h1 := hClone_fresh_arg w b j hj
      refine ⟨by rw [hClone_len_arg]; omega, fun hmem => ?_⟩
      have h2 := hwf2 j hmem
      omega
    have hframe := applyHOps_frame ops (hClone w b).1 b (hClone w b).2 hstr harg
    unfold hToSQL
    rw [hframe.1]

/-- Witness for C8: a concrete world, builder and call sequence. -/
theorem clone_independent_witness :
    hToSQL (applyHOps (hClone ⟨⟨[[], [], [], [], [], []]⟩, ⟨[[], []]⟩⟩
        ⟨⟨0, 0⟩, "users", ⟨1, 0⟩, ⟨2, 0⟩, ⟨0, 0⟩, ⟨3, 0⟩, ⟨4, 0⟩, ⟨5, 0⟩, ⟨1, 0⟩, none, none⟩)
        [HOp.hWhere "a" "=" (Arg.i 1), HOp.hLimit 5]).1
      ⟨⟨0, 0⟩, "users", ⟨1, 0⟩, ⟨2, 0⟩, ⟨0, 0⟩, ⟨3, 0⟩, ⟨4, 0⟩, ⟨5, 0⟩, ⟨1, 0⟩, none, none⟩ =
    hToSQL ⟨⟨[[], [], [], [], [], []]⟩, ⟨[[], []]⟩⟩
      ⟨⟨0, 0⟩, "users", ⟨1, 0⟩, ⟨2, 0⟩, ⟨0, 0⟩, ⟨3, 0⟩, ⟨4, 0⟩, ⟨5, 0⟩, ⟨1, 0⟩, none, none⟩ ∧
    hToSQL (applyHOps ((hClone ⟨⟨[[], [], [], [], [], []]⟩, ⟨[[], []]⟩⟩
        ⟨⟨0, 0⟩, "users", ⟨1, 0⟩, ⟨2, 0⟩, ⟨0, 0⟩, ⟨3, 0⟩, ⟨4, 0⟩, ⟨5, 0⟩, ⟨1, 0⟩, none, none⟩).1,
        ⟨⟨0, 0⟩, "users", ⟨1, 0⟩, ⟨2, 0⟩, ⟨0, 0⟩, ⟨3, 0⟩, ⟨4, 0⟩, ⟨5, 0⟩, ⟨1, 0⟩, none, none⟩)
        [HOp.hWhere "a" "=" (Arg.i 1), HOp.hLimit 5]).1
      (hClone ⟨⟨[[], [], [], [], [], []]⟩, ⟨[[], []]⟩⟩
        ⟨⟨0, 0⟩, "users", ⟨1, 0⟩, ⟨2, 0⟩, ⟨0, 0⟩, ⟨3, 0⟩, ⟨4, 0⟩, ⟨5, 0⟩, ⟨1, 0⟩, none, none⟩).2 =
    hToSQL (hClone ⟨⟨[[], [], [], [], [], []]⟩, ⟨[[], []]⟩⟩
        ⟨⟨0, 0⟩, "users", ⟨1, 0⟩, ⟨2, 0⟩, ⟨0, 0⟩, ⟨3, 0⟩, ⟨4, 0⟩, ⟨5, 0⟩, ⟨1, 0⟩, none, none⟩).1
      (hClone ⟨⟨[[], [], [], [], [], []]⟩, ⟨[[], []]⟩⟩
        ⟨⟨0, 0⟩, "users", ⟨1, 0⟩, ⟨2, 0⟩, ⟨0, 0⟩, ⟨3, 0⟩, ⟨4, 0⟩, ⟨5, 0⟩, ⟨1, 0⟩, none, none⟩).2 :=
  clone_independent ⟨⟨[[], [], [], [], [], []]⟩, ⟨[[], []]⟩⟩
    ⟨⟨0, 0⟩, "users", ⟨1, 0⟩, ⟨2, 0⟩, ⟨0, 0⟩, ⟨3, 0⟩, ⟨4, 0⟩, ⟨5, 0⟩, ⟨1, 0⟩, none, none⟩
    (by constructor <;> intro j hj <;> simp [strIds, argIds] at hj <;> rcases hj with
      rfl | rfl | rfl | rfl | rfl | rfl <;> simp)
    [HOp.hWhere "a" "=" (Arg.i 1), HOp.hLimit 5]
